import Mathlib

/-! # MapperEMVS: the DSI construction and voting engine

A shallow embedding of `esvo_core/src/emvs_core/MapperEMVS.cpp`.

Conventions of the embedding.

* Floating-point numbers are exact rationals. A value that exact arithmetic does
  not define (a quotient by zero, which in floating point is an infinity or a NaN,
  anything computed from such a value, or a value read past the end of a buffer)
  is `none`; a defined value is `some q`.
* Eigen's fixed-size `inverse()` is adjugate over determinant.
* `size_t` and `int` counters are natural numbers (no wrap-around is modelled).
* `Grid3D` is not part of this translation unit. A depth slice is a value of an
  arbitrary type `σ`, the grid is the family of its slices, and
  `accumulateGridValueAt(x, y, slice)` is a parameter of the model.
* The `while` loop of `updateDSI` can fail to terminate (packet size zero), so it
  is driven by a fuel counter; `none` means the fuel ran out.
-/

namespace EMVS

/-! ## Linear algebra -/

abbrev Matrix3f := Matrix (Fin 3) (Fin 3) ℚ
abbrev Matrix4f := Matrix (Fin 4) (Fin 4) ℚ
abbrev Matrix4d := Matrix (Fin 4) (Fin 4) ℚ
abbrev Vector2f := Fin 2 → ℚ
abbrev Vector2d := Fin 2 → ℚ
abbrev Vector3f := Fin 3 → ℚ
abbrev Vector3d := Fin 3 → ℚ
abbrev Vector4f := Fin 4 → ℚ

/-- Eigen `M.inverse()` for a fixed-size square matrix: the adjugate divided by the
determinant. For a singular matrix the division is by zero and no entry is defined. -/
def inverse {n : Nat} (M : Matrix (Fin n) (Fin n) ℚ) : Option (Matrix (Fin n) (Fin n) ℚ) :=
  if M.det = 0 then none else some (M.det⁻¹ • M.adjugate)

/-- Eigen `T.topLeftCorner<3, 3>()`. -/
def topLeftCorner (T : Matrix4d) : Matrix3f :=
  Matrix.of fun i j => T (Fin.castSucc i) (Fin.castSucc j)

/-- Eigen `T.topRightCorner<3, 1>()`. -/
def topRightCorner (T : Matrix4d) : Vector3f :=
  fun i => T (Fin.castSucc i) 3

/-- Scalar division `x / d` of two defined numbers; undefined when `d = 0`. -/
def divide (x d : ℚ) : Option ℚ :=
  if d = 0 then none else some (x / d)

/-! ## Data model -/

/-- The `dvs_msgs::Event` message: pixel coordinates and a timestamp. -/
structure Event where
  x : Nat
  y : Nat
  ts : Nat
deriving DecidableEq, Inhabited

/-- The trajectory collaborator: `getPoseAt(t, T)` either fails or yields a pose. -/
structure TrajectoryType where
  getPoseAt : Nat → Option Matrix4d

/-- The camera-model collaborator, as far as the point generator uses it:
`liftProjective(p, P)` lifts a pixel to a ray. -/
structure Camera where
  liftProjective : Vector2d → Vector3d

/-- The members of `MapperEMVS` read or written by the functions embedded here.
`camera_virtual_params_` is the 8-entry vector built by `setupDSI`;
`precomputed_rectified_points_` is the column lookup of the rectification table;
`dsi_` maps a depth-plane index to its slice (`getPointerToSlice`). -/
structure MapperEMVS (σ : Type) where
  camera_virtual_ptr_ : Camera
  packet_size_ : Nat
  width_ : Nat
  height_ : Nat
  raw_depths_vec_ : List ℚ
  camera_virtual_params_ : Fin 8 → ℚ
  precomputed_rectified_points_ : Nat → Option Vector2f
  T_w_rv_ : Matrix4d
  dsi_ : Nat → σ

/-- The two function-local `static` buffers of `updateDSI`, which persist between calls. -/
structure Statics where
  event_locations_z0 : List (Option Vector4f)
  camera_centers : List (Option Vector3f)

/-- The local variables of the `while` loop of `updateDSI`. -/
structure LoopState where
  current_event_ : Nat
  event_locations_z0 : List (Option Vector4f)
  camera_centers : List (Option Vector3f)

/-! ## Stage B: `fillVoxelGrid` -/

/-- The batch size `static const int N = 128`. -/
def N : Nat := 128

/-- The four coefficients of Eq. (15) computed once per packet and depth plane. -/
structure Coefficients where
  a : ℚ
  bx : ℚ
  b_y : ℚ
  d : ℚ
deriving DecidableEq

/-- Lines 140-145 for defined operands: `a`, `bx`, `by`, `d` from `z0`, `zi`, the
camera center `C` and the virtual intrinsics. -/
def eq15Coefficients (z0 zi : ℚ) (params : Fin 8 → ℚ) (C : Vector3f) : Coefficients where
  a := z0 * (zi - C 2)
  bx := (z0 - zi) * (C 0 * params 4 + C 2 * params 6)
  b_y := (z0 - zi) * (C 1 * params 5 + C 2 * params 7)
  d := zi * (z0 - C 2)

/-- Lines 127 and 140-145: the coefficients of a packet for one depth plane, with
`z0 = raw_depths_vec_[0]`, `zi = raw_depths_vec_[depth_plane]` and
`C = camera_centers[packet]`. -/
def coefficients {σ : Type} (m : MapperEMVS σ) (depth_plane : Nat) (C : Option Vector3f) :
    Option Coefficients :=
  match m.raw_depths_vec_[0]?, m.raw_depths_vec_[depth_plane]?, C with
  | some z0, some zi, some c => some (eq15Coefficients z0 zi m.camera_virtual_params_ c)
  | _, _, _ => none

/-- Lines 154-155: the component `pe[i][c]` read through the pointer `pe`, which is
held as an offset into `event_locations_z0`. -/
def readLocation (event_locations_z0 : List (Option Vector4f)) (pe i : Nat) (c : Fin 4) :
    Option ℚ :=
  match event_locations_z0[pe + i]? with
  | some (some p) => some (p c)
  | _ => none

/-- Lines 157-158: `(X * a + b) / d` for one array entry. -/
def eq15 (co : Option Coefficients) (b : Coefficients → ℚ) (X : Option ℚ) : Option ℚ :=
  match co, X with
  | some c, some x => divide (x * c.a + b c) c.d
  | _, _ => none

/-- Lines 151-164: one batch. `N` locations are read at `pe`, transformed by Eq. (15)
and voted, in index order, into the slice `pgrid`. -/
def voteBatch {σ : Type} (accumulateGridValueAt : Option ℚ → Option ℚ → σ → σ)
    (event_locations_z0 : List (Option Vector4f)) (co : Option Coefficients)
    (pe : Nat) (pgrid : σ) : σ :=
  (List.range N).foldl
    (fun g i =>
      accumulateGridValueAt
        (eq15 co Coefficients.bx (readLocation event_locations_z0 pe i 0))
        (eq15 co Coefficients.b_y (readLocation event_locations_z0 pe i 1)) g)
    pgrid

/-- Lines 137-166: the body of the packet loop. The coefficients are computed, then
`packet_size_ / N` batches are voted, the pointer advancing by `N` after each. The
state is the pointer `pe` and the slice. -/
def processPacket {σ : Type} (accumulateGridValueAt : Option ℚ → Option ℚ → σ → σ)
    (m : MapperEMVS σ) (event_locations_z0 : List (Option Vector4f)) (depth_plane : Nat)
    (s : Nat × σ) (C : Option Vector3f) : Nat × σ :=
  (List.range (m.packet_size_ / N)).foldl
    (fun (t : Nat × σ) _ =>
      (t.1 + N,
        voteBatch accumulateGridValueAt event_locations_z0
          (coefficients m depth_plane C) t.1 t.2))
    s

/-- Lines 134-166: the work of one depth plane on its slice, starting with
`pe = &event_locations_z0[0]` and running through the camera centers in order. -/
def processPlane {σ : Type} (accumulateGridValueAt : Option ℚ → Option ℚ → σ → σ)
    (m : MapperEMVS σ) (event_locations_z0 : List (Option Vector4f))
    (camera_centers : List (Option Vector3f)) (depth_plane : Nat) (pgrid : σ) : σ :=
  (camera_centers.foldl
    (processPacket accumulateGridValueAt m event_locations_z0 depth_plane) (0, pgrid)).2

/-- Lines 132-167: one iteration of the depth-plane loop as a transformation of the
grid: the slice `getPointerToSlice(depth_plane)` is replaced by its voted version. -/
def planeIteration {σ : Type} (accumulateGridValueAt : Option ℚ → Option ℚ → σ → σ)
    (m : MapperEMVS σ) (event_locations_z0 : List (Option Vector4f))
    (camera_centers : List (Option Vector3f)) (dsi : Nat → σ) (depth_plane : Nat) : Nat → σ :=
  Function.update dsi depth_plane
    (processPlane accumulateGridValueAt m event_locations_z0 camera_centers depth_plane
      (dsi depth_plane))

/-- The depth-plane loop run over the plane indices in the given order (the OpenMP
`parallel for` leaves the order to the scheduler). -/
def fillVoxelGridInOrder {σ : Type} (accumulateGridValueAt : Option ℚ → Option ℚ → σ → σ)
    (order : List Nat) (m : MapperEMVS σ) (event_locations_z0 : List (Option Vector4f))
    (camera_centers : List (Option Vector3f)) : MapperEMVS σ :=
  { m with
    dsi_ := order.foldl
      (planeIteration accumulateGridValueAt m event_locations_z0 camera_centers) m.dsi_ }

/-- `MapperEMVS::fillVoxelGrid`: the depth planes `0 .. raw_depths_vec_.size() - 1` in
the order of the sequential `for` loop. -/
def fillVoxelGrid {σ : Type} (accumulateGridValueAt : Option ℚ → Option ℚ → σ → σ)
    (m : MapperEMVS σ) (event_locations_z0 : List (Option Vector4f))
    (camera_centers : List (Option Vector3f)) : MapperEMVS σ :=
  fillVoxelGridInOrder accumulateGridValueAt (List.range m.raw_depths_vec_.length) m
    event_locations_z0 camera_centers

/-! ## Stage A: `updateDSI` -/

/-- Line 66: the optical center `-R.transpose() * t`. -/
def cameraCenter (R : Matrix3f) (t : Vector3f) : Vector3f :=
  (-R.transpose).mulVec t

/-- Lines 72-74: `H_z0_inv = R; H_z0_inv *= z0; H_z0_inv.col(2) += t`. -/
def H_z0_inv (R : Matrix3f) (t : Vector3f) (z0 : ℚ) : Matrix3f :=
  Matrix.of fun i j => if j = 2 then z0 * R i j + t i else z0 * R i j

/-- Lines 77-80: the intrinsic matrix of the virtual camera. -/
def K_virtual (params : Fin 8 → ℚ) : Matrix3f :=
  !![params 4, 0, params 6; 0, params 5, params 7; 0, 0, 1]

/-- Line 81: `H_z0_px = K_virtual * H_z0_inv.inverse()`. -/
def H_z0_px (params : Fin 8 → ℚ) (R : Matrix3f) (t : Vector3f) (z0 : ℚ) : Option Matrix3f :=
  (inverse (H_z0_inv R t z0)).map fun Hinv => K_virtual params * Hinv

/-- Lines 84-87: the 3x3 homography in the top-left block of a 4x4 matrix whose last
row and last column are zero. -/
def H_z0_px_4x4 (H : Matrix3f) : Matrix4f :=
  Matrix.of fun i j =>
    if hi : i.val < 3 then
      if hj : j.val < 3 then H ⟨i.val, hi⟩ ⟨j.val, hj⟩ else 0
    else 0

/-- Lines 99-100 for a defined homography and rectified point: `p = H * p; p /= p[2]`
with `p = (x, y, 1, 0)`. -/
def warpPoint (H : Matrix3f) (r : Vector2f) : Option Vector4f :=
  let p : Vector4f := (H_z0_px_4x4 H).mulVec ![r 0, r 1, 1, 0]
  if p 2 = 0 then none else some fun i => p i / p 2

/-- Lines 92-102: the warped location of one event, from the rectification-table
column `e.y * width_ + e.x`. -/
def warpEvent {σ : Type} (m : MapperEMVS σ) (H : Option Matrix3f) (e : Event) :
    Option Vector4f :=
  match H, m.precomputed_rectified_points_ (e.y * m.width_ + e.x) with
  | some h, some r => warpPoint h r
  | _, _ => none

/-- Lines 61-64: `T_ev_rv = (T_rv_w * T_w_ev).inverse()`. -/
def T_ev_rv (T_rv_w : Option Matrix4d) (T_w_ev : Matrix4d) : Option Matrix4d :=
  match T_rv_w with
  | some T => inverse (T * T_w_ev)
  | none => none

/-- Lines 52-103: one iteration of the `while` loop, entered with the loop condition
true. On a pose miss only the cursor moves, by one. Otherwise the camera center is
pushed, and `packet_size_` events are read at the cursor, warped and pushed. -/
def packetStep {σ : Type} (m : MapperEMVS σ) (events : List Event)
    (trajectory : TrajectoryType) (T_rv_w : Option Matrix4d) (s : LoopState) : LoopState :=
  let frame_ts := (events.getD (s.current_event_ + m.packet_size_ / 2) default).ts
  match trajectory.getPoseAt frame_ts with
  | none => { s with current_event_ := s.current_event_ + 1 }
  | some T_w_ev =>
    let T := T_ev_rv T_rv_w T_w_ev
    let R := T.map topLeftCorner
    let t := T.map topRightCorner
    let center : Option Vector3f :=
      match R, t with
      | some R, some t => some (cameraCenter R t)
      | _, _ => none
    let H : Option Matrix3f :=
      match R, t, m.raw_depths_vec_[0]? with
      | some R, some t, some z0 => H_z0_px m.camera_virtual_params_ R t z0
      | _, _, _ => none
    { current_event_ := s.current_event_ + m.packet_size_
      event_locations_z0 := s.event_locations_z0 ++
        (List.range m.packet_size_).map fun i =>
          warpEvent m H (events.getD (s.current_event_ + i) default)
      camera_centers := s.camera_centers ++ [center] }

/-- Lines 49-104: the `while (current_event_ + packet_size_ < events.size())` loop,
run for at most `fuel` iterations. -/
def packetLoop {σ : Type} (m : MapperEMVS σ) (events : List Event)
    (trajectory : TrajectoryType) (T_rv_w : Option Matrix4d) :
    Nat → LoopState → Option LoopState
  | 0, s => if s.current_event_ + m.packet_size_ < events.length then none else some s
  | fuel + 1, s =>
    if s.current_event_ + m.packet_size_ < events.length then
      packetLoop m events trajectory T_rv_w fuel (packetStep m events trajectory T_rv_w s)
    else some s

/-- `MapperEMVS::updateDSI`. The result is the returned status, the mapper and the
static buffers after the call. -/
def updateDSI {σ : Type} (accumulateGridValueAt : Option ℚ → Option ℚ → σ → σ)
    (fuel : Nat) (m : MapperEMVS σ) (st : Statics) (events : List Event)
    (trajectory : TrajectoryType) : Option (Bool × MapperEMVS σ × Statics) :=
  if events.length < m.packet_size_ then some (false, m, st)
  else
    match packetLoop m events trajectory (inverse m.T_w_rv_) fuel
        { current_event_ := 0, event_locations_z0 := [], camera_centers := [] } with
    | none => none
    | some s =>
      some (true,
        fillVoxelGrid accumulateGridValueAt m s.event_locations_z0 s.camera_centers,
        { event_locations_z0 := s.event_locations_z0, camera_centers := s.camera_centers })

/-! ## Point generator: `getDepthPoint` and `getPointcloud` -/

/-- The `cv::Mat` interface used here: the shape and the accessor `at<T>(y, x)`. -/
structure Mat (α : Type) where
  rows : Nat
  cols : Nat
  at_ : Nat → Nat → α

/-- Modelled from the spec: the class `esvo_core::container::DepthPoint` is declared
outside this translation unit. The record holds what the constructor and the setters
are given: the row and column of `dp(y, x)`, the pixel of `update_x`, the inverse
depth and variance of `update`, the 3-D point of `update_p_cam` and the pose of
`updatePose`. -/
structure DepthPoint where
  row : Nat
  col : Nat
  x : Vector2d
  invDepth : Option ℚ
  variance : ℚ
  p_cam : Option Vector3d
  T_world_cam : Matrix4d
deriving DecidableEq

/-- The `pcl::PointXYZI` point: three coordinates and an intensity. -/
structure PointXYZI where
  x : Option ℚ
  y : Option ℚ
  z : Option ℚ
  intensity : Option ℚ
deriving DecidableEq

/-- Lines 282 and 317: `P / P.z() * depth`, undefined when the ray has `P.z() = 0`. -/
def xyz_rv (P : Vector3d) (depth : ℚ) : Option Vector3d :=
  if P 2 = 0 then none else some fun i => P i / P 2 * depth

/-- Lines 277-293: the body of the pixel loop of `getDepthPoint`. A mask-valid pixel
whose point has `z <= 1e-6` is skipped. When the point is undefined its `z` is a NaN,
for which the comparison `z <= 1e-6` is false, so a record is pushed. -/
def getDepthPointPixel {σ : Type} (m : MapperEMVS σ) (depth_map : Mat ℚ) (mask : Mat Nat)
    (y x : Nat) (vdp : List DepthPoint) : List DepthPoint :=
  if 0 < mask.at_ y x then
    let p : Vector2d := ![(x : ℚ), (y : ℚ)]
    let P := m.camera_virtual_ptr_.liftProjective p
    match xyz_rv P (depth_map.at_ y x) with
    | some v =>
      if v 2 ≤ 1 / 1000000 then vdp
      else
        vdp ++ [{ row := y, col := x, x := p, invDepth := divide 1 (v 2), variance := 1 / 10,
                  p_cam := some v, T_world_cam := m.T_w_rv_ }]
    | none =>
      vdp ++ [{ row := y, col := x, x := p, invDepth := none, variance := 1 / 10,
                p_cam := none, T_world_cam := m.T_w_rv_ }]
  else vdp

/-- `MapperEMVS::getDepthPoint`: the output vector is cleared, then the pixels are
visited row by row. The result is the output vector after the call. -/
def getDepthPoint {σ : Type} (m : MapperEMVS σ) (depth_map : Mat ℚ) (mask : Mat Nat)
    (_vdp : List DepthPoint) : List DepthPoint :=
  (List.range depth_map.rows).foldl
    (fun v y =>
      (List.range depth_map.cols).foldl
        (fun w x => getDepthPointPixel m depth_map mask y x w) v)
    []

/-- Lines 312-325: the body of the pixel loop of `getPointcloud`. Every mask-valid
pixel pushes a point, with intensity `1.0 / p_rv.z`. -/
def getPointcloudPixel {σ : Type} (m : MapperEMVS σ) (depth_map : Mat ℚ) (mask : Mat Nat)
    (y x : Nat) (pc : List PointXYZI) : List PointXYZI :=
  if 0 < mask.at_ y x then
    let p : Vector2d := ![(x : ℚ), (y : ℚ)]
    let P := m.camera_virtual_ptr_.liftProjective p
    match xyz_rv P (depth_map.at_ y x) with
    | some v => pc ++ [{ x := some (v 0), y := some (v 1), z := some (v 2),
                         intensity := divide 1 (v 2) }]
    | none => pc ++ [{ x := none, y := none, z := none, intensity := none }]
  else pc

/-- Lines 307-327: the point cloud of `getPointcloud` before the outlier filter. -/
def convertDepthMapToPointcloud {σ : Type} (m : MapperEMVS σ) (depth_map : Mat ℚ)
    (mask : Mat Nat) : List PointXYZI :=
  (List.range depth_map.rows).foldl
    (fun v y =>
      (List.range depth_map.cols).foldl
        (fun w x => getPointcloudPixel m depth_map mask y x w) v)
    []

/-- `MapperEMVS::getPointcloud`. The two `CHECK_EQ` abort on a shape mismatch (`none`);
`outlier_rm` is the PCL radius outlier removal, a collaborator. -/
def getPointcloud {σ : Type} (m : MapperEMVS σ) (outlier_rm : List PointXYZI → List PointXYZI)
    (depth_map : Mat ℚ) (mask : Mat Nat) (_pc : List PointXYZI) : Option (List PointXYZI) :=
  if depth_map.rows ≠ mask.rows then none
  else if depth_map.cols ≠ mask.cols then none
  else some (outlier_rm (convertDepthMapToPointcloud m depth_map mask))

/-! ## The packet recorded by one iteration of the loop of `updateDSI` -/

/-- Lines 61-66: the camera center pushed for a packet whose resolved pose is `T_w_ev`. -/
def packetCenter (T_rv_w : Option Matrix4d) (T_w_ev : Matrix4d) : Option Vector3f :=
  match (T_ev_rv T_rv_w T_w_ev).map topLeftCorner, (T_ev_rv T_rv_w T_w_ev).map topRightCorner with
  | some R, some t => some (cameraCenter R t)
  | _, _ => none

/-- Lines 61-81: the homography `H_z0_px` of a packet whose resolved pose is `T_w_ev`. -/
def packetHomography {σ : Type} (m : MapperEMVS σ) (T_rv_w : Option Matrix4d)
    (T_w_ev : Matrix4d) : Option Matrix3f :=
  match (T_ev_rv T_rv_w T_w_ev).map topLeftCorner, (T_ev_rv T_rv_w T_w_ev).map topRightCorner,
    m.raw_depths_vec_[0]? with
  | some R, some t, some z0 => H_z0_px m.camera_virtual_params_ R t z0
  | _, _, _ => none

/-- Lines 90-103: the warped locations pushed for the packet that starts at `cursor`. -/
def packetLocations {σ : Type} (m : MapperEMVS σ) (events : List Event) (H : Option Matrix3f)
    (cursor : Nat) : List (Option Vector4f) :=
  (List.range m.packet_size_).map fun i => warpEvent m H (events.getD (cursor + i) default)

/-- Line 190: the number of columns of the rectification table. -/
def rectifiedPointsCols {σ : Type} (m : MapperEMVS σ) : Nat :=
  m.height_ * m.width_

/-! ## Reference notions the claims are stated against -/

/-- The pixel of a 3-D point in the virtual camera: `K_virtual * P` divided by its
third component. -/
def pixelOf (params : Fin 8 → ℚ) (P : Vector3f) : ℚ × ℚ :=
  let q := (K_virtual params).mulVec P
  (q 0 / q 2, q 1 / q 2)

/-- The point where the line through `C` and `X0` meets the plane `Z = zi`. -/
def meetPlane (C X0 : Vector3f) (zi : ℚ) : Vector3f :=
  fun i => C i + (zi - C 2) / (X0 2 - C 2) * (X0 i - C i)

/-- The pixels `(y, x)` of a `rows x cols` image in row-major order. -/
def rowMajorPixels (rows cols : Nat) : List (Nat × Nat) :=
  (List.range rows).flatMap fun y => (List.range cols).map fun x => (y, x)

/-- The depth-point record as the specification words it: pixel `(x, y)`, inverse
depth `1 / z` with `z` the depth of the pixel, variance `0.1`, the 3-D point
`ray / ray.z * depth`, and the current reference pose. -/
def depthPointRecord {σ : Type} (m : MapperEMVS σ) (depth_map : Mat ℚ) (y x : Nat) :
    DepthPoint :=
  let P := m.camera_virtual_ptr_.liftProjective ![(x : ℚ), (y : ℚ)]
  { row := y, col := x, x := ![(x : ℚ), (y : ℚ)],
    invDepth := some (1 / depth_map.at_ y x), variance := 1 / 10,
    p_cam := some fun i => P i / P 2 * depth_map.at_ y x,
    T_world_cam := m.T_w_rv_ }

/-- The parallel-sequence invariant of the loop of `updateDSI`: there is a list of resolved
packets, each given by the cursor it starts at and its pose, such that every packet lies
inside the event batch and has that pose at its midpoint, the camera centers are those
of the packets in order, and the warped locations are those of the packets in order,
`packet_size_` per packet. -/
def ParallelSequences {σ : Type} (m : MapperEMVS σ) (events : List Event)
    (trajectory : TrajectoryType) (T_rv_w : Option Matrix4d)
    (locs : List (Option Vector4f)) (centers : List (Option Vector3f)) : Prop :=
  ∃ packets : List (Nat × Matrix4d),
    (∀ p ∈ packets, p.1 + m.packet_size_ < events.length ∧
      trajectory.getPoseAt (events.getD (p.1 + m.packet_size_ / 2) default).ts = some p.2) ∧
    centers = packets.map (fun p => packetCenter T_rv_w p.2) ∧
    locs = packets.flatMap
      (fun p => packetLocations m events (packetHomography m T_rv_w p.2) p.1)

/-- A rigid transform in the words of the specification: the rotation block is
orthogonal and the last row is `0 0 0 1`. -/
def IsRigid (T : Matrix4d) : Prop :=
  topLeftCorner T * (topLeftCorner T).transpose = 1 ∧
    T 3 0 = 0 ∧ T 3 1 = 0 ∧ T 3 2 = 0 ∧ T 3 3 = 1

/-- The 4 x 4 transform with rotation block `R`, translation column `t` and last row
`0 0 0 1`. -/
def rigidMatrix (R : Matrix3f) (t : Vector3f) : Matrix4d :=
  Matrix.of fun i j =>
    if hi : i.val < 3 then
      if hj : j.val < 3 then R ⟨i.val, hi⟩ ⟨j.val, hj⟩ else t ⟨i.val, hi⟩
    else if j.val < 3 then 0 else 1

/-! ## Concrete inputs -/

/-- A slice that keeps, in order, the locations voted into it. -/
abbrev VoteLog := List (Option ℚ × Option ℚ)

/-- An `accumulateGridValueAt` that appends the voted location to the slice. -/
def recordVote (x y : Option ℚ) (g : VoteLog) : VoteLog :=
  g ++ [(x, y)]

/-- Virtual intrinsics with unit focal lengths and principal point (1, 1). -/
def exampleParams : Fin 8 → ℚ :=
  ![0, 0, 0, 0, 1, 1, 1, 1]

/-- A mapper on a 2 x 2 sensor with depth planes 1 and 2, unit focal length, principal
point (1, 1), identity reference pose, an empty grid, and the given packet size. -/
def exampleMapper (packet_size : Nat) : MapperEMVS VoteLog where
  camera_virtual_ptr_ := { liftProjective := fun p => ![p 0 - 1, p 1 - 1, 1] }
  packet_size_ := packet_size
  width_ := 2
  height_ := 2
  raw_depths_vec_ := [1, 2]
  camera_virtual_params_ := exampleParams
  precomputed_rectified_points_ := fun i =>
    if i < 4 then some ![((i % 2 : Nat) : ℚ) - 1, ((i / 2 : Nat) : ℚ) - 1] else none
  T_w_rv_ := 1
  dsi_ := fun _ => []

/-- A trajectory that has the identity pose at every timestamp. -/
def identityTrajectory : TrajectoryType where
  getPoseAt := fun _ => some 1

/-- A trajectory that has no pose at any timestamp. -/
def emptyTrajectory : TrajectoryType where
  getPoseAt := fun _ => none

/-- A 1 x 1 depth map whose only depth is zero. -/
def zeroDepthMap : Mat ℚ where
  rows := 1
  cols := 1
  at_ := fun _ _ => 0

/-- A 1 x 2 depth map with the depths 2 and 0. -/
def exampleDepthMap : Mat ℚ where
  rows := 1
  cols := 2
  at_ := fun _ x => if x = 0 then 2 else 0

/-- A mask of the given shape that is valid at every pixel. -/
def fullMask (rows cols : Nat) : Mat Nat where
  rows := rows
  cols := cols
  at_ := fun _ _ => 1

/-- Empty static buffers. -/
def emptyStatics : Statics where
  event_locations_z0 := []
  camera_centers := []

/-! ## Depth map extractor: `removeMaskBoundary` -/

/-- Lines 224-225: the test that decides whether pixel `(y, x)` lies in the border band,
in the `int` arithmetic of the source. -/
def inBorder (rows cols : Nat) (border_size : Int) (y x : Nat) : Bool :=
  decide ((x : Int) ≤ border_size) || decide ((x : Int) ≥ (cols : Int) - border_size) ||
    decide ((y : Int) ≤ border_size) || decide ((y : Int) ≥ (rows : Int) - border_size)

/-- Line 227: `mask.at<uchar>(y, x) = 0`. -/
def setZero (mask : Mat Nat) (y x : Nat) : Mat Nat :=
  { mask with at_ := fun y2 x2 => if y2 = y ∧ x2 = x then 0 else mask.at_ y2 x2 }

/-- `MapperEMVS::removeMaskBoundary`: the pixels are visited row by row and those in the
border band are set to zero. The result is the mask after the call. -/
def removeMaskBoundary (mask : Mat Nat) (border_size : Int) : Mat Nat :=
  (List.range mask.rows).foldl
    (fun mk y =>
      (List.range mask.cols).foldl
        (fun mk2 x => if inBorder mask.rows mask.cols border_size y x then setZero mk2 y x
          else mk2)
        mk)
    mask

/-- Line 261 of `getDepthMapFromDSI`: `std::max(kernel_size / 2, 1)`, with the truncating
division of `int`. -/
def border_size (adaptive_threshold_kernel_size_ : Int) : Int :=
  max (Int.tdiv adaptive_threshold_kernel_size_ 2) 1

/-! ## Setup: `setupDSI` -/

/-- The `ShapeDSI` configuration, as far as `setupDSI` reads it: the three grid
dimensions and the depth range. -/
structure ShapeDSI where
  dimX_ : Int
  dimY_ : Int
  dimZ_ : Int
  min_depth_ : ℚ
  max_depth_ : ℚ
deriving DecidableEq

/-- The glog check `CHECK_GT(a, b)`: the process aborts (`none`) unless `a > b`. -/
def CHECK_GT (a b : ℚ) : Option Unit :=
  if a > b then some () else none

/-- The members of `MapperEMVS` written by `setupDSI`. -/
structure SetupDSI (σ : Type) where
  dsi_shape_ : ShapeDSI
  raw_depths_vec_ : List ℚ
  camera_virtual_params_ : Fin 8 → ℚ
  dsi_ : Nat → σ

/-- `MapperEMVS::setupDSI`. The constructors `TypeDepthVector(min, max, dimZ)` (followed
by `getDepthVector()`) and `Grid3D(dimX, dimY, dimZ)` are declared outside this
translation unit: they are parameters, and each may abort on its own. `imageWidth` and
`imageHeight` are those of `camera_ptr_`, and `camera_params_` is its parameter vector.
`none` is an abort. -/
def setupDSI {σ : Type} (TypeDepthVector : ℚ → ℚ → Int → Option (List ℚ))
    (Grid3D : Int → Int → Int → Option (Nat → σ)) (imageWidth imageHeight : Int)
    (camera_params_ : Nat → ℚ) (dsi_shape_ : ShapeDSI) : Option (SetupDSI σ) :=
  match CHECK_GT dsi_shape_.min_depth_ 0 with
  | none => none
  | some _ =>
    match CHECK_GT dsi_shape_.max_depth_ dsi_shape_.min_depth_ with
    | none => none
    | some _ =>
      match TypeDepthVector dsi_shape_.min_depth_ dsi_shape_.max_depth_ dsi_shape_.dimZ_ with
      | none => none
      | some raw_depths_vec =>
        let dimX : Int := if dsi_shape_.dimX_ > 0 then dsi_shape_.dimX_ else imageWidth
        let dimY : Int := if dsi_shape_.dimY_ > 0 then dsi_shape_.dimY_ else imageHeight
        match Grid3D dimX dimY dsi_shape_.dimZ_ with
        | none => none
        | some dsi =>
          some
            { dsi_shape_ := { dsi_shape_ with dimX_ := dimX, dimY_ := dimY }
              raw_depths_vec_ := raw_depths_vec
              camera_virtual_params_ :=
                ![0, 0, 0, 0, camera_params_ 4, camera_params_ 4,
                  (1 / 2) * (dimX : ℚ), (1 / 2) * (dimY : ℚ)]
              dsi_ := dsi }

/-! ## Concrete inputs for the extractor and the setup -/

/-- A depth-vector constructor that aborts unless there is at least one plane, and
otherwise yields `dimZ` depths starting at the minimum depth, one unit of the range
apart. -/
def exampleDepthVector (min_depth max_depth : ℚ) (dimZ : Int) : Option (List ℚ) :=
  if dimZ ≤ 0 then none
  else some ((List.range dimZ.toNat).map fun i => min_depth + (i : ℚ) * (max_depth - min_depth))

/-- A grid constructor that aborts unless the three dimensions are positive, and
otherwise yields empty slices. -/
def exampleGrid3D (dimX dimY dimZ : Int) : Option (Nat → VoteLog) :=
  if dimX ≤ 0 ∨ dimY ≤ 0 ∨ dimZ ≤ 0 then none else some fun _ => []

/-- A shape that leaves the width and height at zero, with two depth planes between the
depths 1 and 2. -/
def zeroSizeShape : ShapeDSI where
  dimX_ := 0
  dimY_ := 0
  dimZ_ := 2
  min_depth_ := 1
  max_depth_ := 2

/-! # Theorems -/

/-! ## Shared lemmas on the loops of `fillVoxelGrid` -/

theorem foldl_const_iterate {α β : Type} (f : α → α) (l : List β) (a : α) :
    l.foldl (fun g _ => f g) a = f^[l.length] a := by
  induction l generalizing a with
  | nil => rfl
  | cons b l ih => simp [List.foldl_cons, ih, Function.iterate_succ_apply]

theorem foldl_pointer_step {σ : Type} (g : Nat → σ → σ) (step : Nat) (l : List Nat) (s : Nat × σ) :
    (l.foldl (fun (t : Nat × σ) _ => (t.1 + step, g t.1 t.2)) s).1 = s.1 + l.length * step := by
  induction l generalizing s with
  | nil => simp
  | cons b l ih =>
    simp only [List.foldl_cons, List.length_cons]
    rw [ih]
    ring

theorem processPacket_fst {σ : Type} (vote : Option ℚ → Option ℚ → σ → σ)
    (m : MapperEMVS σ) (locs : List (Option Vector4f)) (depth_plane : Nat)
    (s : Nat × σ) (C : Option Vector3f) :
    (processPacket vote m locs depth_plane s C).1 = s.1 + m.packet_size_ / N * N := by
  unfold processPacket
  rw [foldl_pointer_step]
  simp

theorem processPacket_of_lt {σ : Type} (vote : Option ℚ → Option ℚ → σ → σ)
    (m : MapperEMVS σ) (locs : List (Option Vector4f)) (depth_plane : Nat)
    (s : Nat × σ) (C : Option Vector3f) (h : m.packet_size_ < N) :
    processPacket vote m locs depth_plane s C = s := by
  unfold processPacket
  rw [Nat.div_eq_of_lt h]
  rfl

theorem processPlane_of_lt {σ : Type} (vote : Option ℚ → Option ℚ → σ → σ)
    (m : MapperEMVS σ) (locs : List (Option Vector4f)) (centers : List (Option Vector3f))
    (depth_plane : Nat) (pgrid : σ) (h : m.packet_size_ < N) :
    processPlane vote m locs centers depth_plane pgrid = pgrid := by
  unfold processPlane
  have key : ∀ (s : Nat × σ),
      centers.foldl (processPacket vote m locs depth_plane) s = s := by
    induction centers with
    | nil => intro s; rfl
    | cons c cs ih =>
      intro s
      rw [List.foldl_cons, processPacket_of_lt vote m locs depth_plane s c h, ih]
  rw [key]

theorem foldl_planeIteration_of_fixed {σ : Type} (vote : Option ℚ → Option ℚ → σ → σ)
    (m : MapperEMVS σ) (locs : List (Option Vector4f)) (centers : List (Option Vector3f))
    (hfix : ∀ (i : Nat) (g : σ), processPlane vote m locs centers i g = g)
    (order : List Nat) (dsi : Nat → σ) :
    order.foldl (planeIteration vote m locs centers) dsi = dsi := by
  induction order generalizing dsi with
  | nil => rfl
  | cons i is ih =>
    rw [List.foldl_cons]
    have : planeIteration vote m locs centers dsi i = dsi := by
      unfold planeIteration
      rw [hfix]
      exact Function.update_eq_self i dsi
    rw [this, ih]

theorem fillVoxelGrid_no_centers {σ : Type} (vote : Option ℚ → Option ℚ → σ → σ)
    (m : MapperEMVS σ) (locs : List (Option Vector4f)) :
    fillVoxelGrid vote m locs [] = m := by
  unfold fillVoxelGrid fillVoxelGridInOrder
  rw [foldl_planeIteration_of_fixed vote m locs [] (fun _ _ => rfl)]

/-! ## Shared lemmas on the loop of `updateDSI` -/

theorem packetLoop_done {σ : Type} (m : MapperEMVS σ) (events : List Event)
    (trajectory : TrajectoryType) (T_rv_w : Option Matrix4d) (fuel : Nat) (s : LoopState)
    (h : ¬ s.current_event_ + m.packet_size_ < events.length) :
    packetLoop m events trajectory T_rv_w fuel s = some s := by
  cases fuel with
  | zero => simp [packetLoop, h]
  | succ k => simp [packetLoop, h]

theorem packetLoop_step {σ : Type} (m : MapperEMVS σ) (events : List Event)
    (trajectory : TrajectoryType) (T_rv_w : Option Matrix4d) (fuel : Nat) (s : LoopState)
    (h : s.current_event_ + m.packet_size_ < events.length) :
    packetLoop m events trajectory T_rv_w (fuel + 1) s =
      packetLoop m events trajectory T_rv_w fuel (packetStep m events trajectory T_rv_w s) := by
  simp [packetLoop, h]

/-! ## Shared lemmas on the projective geometry -/

@[simp]
theorem exampleParams_four : exampleParams 4 = 1 := rfl

@[simp]
theorem exampleParams_five : exampleParams 5 = 1 := rfl

@[simp]
theorem exampleParams_six : exampleParams 6 = 1 := rfl

@[simp]
theorem exampleParams_seven : exampleParams 7 = 1 := rfl

theorem K_virtual_mulVec (params : Fin 8 → ℚ) (P : Vector3f) :
    (K_virtual params).mulVec P =
      ![params 4 * P 0 + params 6 * P 2, params 5 * P 1 + params 7 * P 2, P 2] := by
  funext i
  fin_cases i <;> simp [K_virtual, Matrix.mulVec, Matrix.dotProduct, Fin.sum_univ_three]

theorem pixelOf_eq (params : Fin 8 → ℚ) (P : Vector3f) :
    pixelOf params P =
      ((params 4 * P 0 + params 6 * P 2) / P 2, (params 5 * P 1 + params 7 * P 2) / P 2) := by
  unfold pixelOf
  rw [K_virtual_mulVec]
  rfl

theorem inverse_of_det_ne_zero {n : Nat} (M : Matrix (Fin n) (Fin n) ℚ) (h : M.det ≠ 0) :
    inverse M = some M⁻¹ := by
  unfold inverse
  rw [if_neg h, Matrix.inv_def, Ring.inverse_eq_inv']

theorem H_z0_px_4x4_mulVec (H : Matrix3f) (a b c : ℚ) :
    (H_z0_px_4x4 H).mulVec ![a, b, c, 0] =
      ![H.mulVec ![a, b, c] 0, H.mulVec ![a, b, c] 1, H.mulVec ![a, b, c] 2, 0] := by
  funext i
  fin_cases i
  · simp [H_z0_px_4x4, Matrix.mulVec, Matrix.dotProduct, Fin.sum_univ_four, Fin.sum_univ_three]
  · simp [H_z0_px_4x4, Matrix.mulVec, Matrix.dotProduct, Fin.sum_univ_four, Fin.sum_univ_three]
  · simp [H_z0_px_4x4, Matrix.mulVec, Matrix.dotProduct, Fin.sum_univ_four, Fin.sum_univ_three]
  · simp [H_z0_px_4x4, Matrix.mulVec, Matrix.dotProduct, Fin.sum_univ_four, Fin.sum_univ_three]
    intro h
    exact absurd h (by decide)

theorem H_z0_inv_mulVec (R : Matrix3f) (t : Vector3f) (z0 X Y : ℚ) (hz : z0 ≠ 0) :
    (H_z0_inv R t z0).mulVec ![X / z0, Y / z0, 1] = R.mulVec ![X, Y, z0] + t := by
  funext i
  simp [H_z0_inv, Matrix.mulVec, Matrix.dotProduct, Fin.sum_univ_three]
  field_simp
  ring

theorem H_z0_inv_det_zero (R : Matrix3f) (t : Vector3f) : (H_z0_inv R t 0).det = 0 := by
  simp [H_z0_inv, Matrix.det_fin_three]

/-! ## Insufficient data -/

/-- C1: a batch with fewer events than one packet makes `updateDSI` return `false`,
for every fuel and trajectory, and the mapper (hence every slice of the voxel
grid) and the static buffers after the call are those before it. -/
theorem updateDSI_insufficient_data {σ : Type}
    (accumulateGridValueAt : Option ℚ → Option ℚ → σ → σ) (fuel : Nat) (m : MapperEMVS σ)
    (st : Statics) (events : List Event) (trajectory : TrajectoryType)
    (h : events.length < m.packet_size_) :
    updateDSI accumulateGridValueAt fuel m st events trajectory = some (false, m, st) := by
  unfold updateDSI
  rw [if_pos h]

/-- Witness of C1: one event against a packet size of two. -/
theorem updateDSI_insufficient_data_witness :
    [(⟨0, 0, 0⟩ : Event)].length < (exampleMapper 2).packet_size_ ∧
      updateDSI recordVote 0 (exampleMapper 2) emptyStatics [⟨0, 0, 0⟩] identityTrajectory =
        some (false, exampleMapper 2, emptyStatics) :=
  ⟨by decide,
    updateDSI_insufficient_data recordVote 0 (exampleMapper 2) emptyStatics [⟨0, 0, 0⟩]
      identityTrajectory (by decide)⟩

/-! ## Packet sizes and the batch size -/

/-- C2, the code at its failing inputs: when the packet size is below the batch size
`N = 128`, `packet_size_ / N` is zero, no batch is voted and `fillVoxelGrid` returns the
mapper as it was, whatever the warped locations and camera centers are. None of the
events of the recorded packets receives a vote. -/
theorem fillVoxelGrid_packet_below_batch {σ : Type}
    (accumulateGridValueAt : Option ℚ → Option ℚ → σ → σ) (m : MapperEMVS σ)
    (event_locations_z0 : List (Option Vector4f)) (camera_centers : List (Option Vector3f))
    (h : m.packet_size_ < N) :
    fillVoxelGrid accumulateGridValueAt m event_locations_z0 camera_centers = m := by
  unfold fillVoxelGrid fillVoxelGridInOrder
  rw [foldl_planeIteration_of_fixed accumulateGridValueAt m event_locations_z0 camera_centers
    (fun i g => processPlane_of_lt accumulateGridValueAt m event_locations_z0 camera_centers
      i g h)]

/-- Witness of C2: packet size 100, one recorded packet of 100 warped locations. -/
theorem fillVoxelGrid_packet_below_batch_witness :
    (exampleMapper 100).packet_size_ < N ∧
      fillVoxelGrid recordVote (exampleMapper 100)
        (List.replicate 100 (some ![1, 1, 1, 0])) [some ![0, 0, 0]] = exampleMapper 100 :=
  ⟨by decide,
    fillVoxelGrid_packet_below_batch recordVote (exampleMapper 100)
      (List.replicate 100 (some ![1, 1, 1, 0])) [some ![0, 0, 0]] (by decide)⟩

/-- C3, the code at its failing inputs: a batch of exactly `packet_size_` events passes
the size check, but the loop condition `current_event_ + packet_size_ < events.size()`
is false at the start, so no packet is processed: no camera center and no warped
location is recorded, the grid is unchanged and the call returns `true`. -/
theorem updateDSI_exactly_one_packet {σ : Type}
    (accumulateGridValueAt : Option ℚ → Option ℚ → σ → σ) (fuel : Nat) (m : MapperEMVS σ)
    (st : Statics) (events : List Event) (trajectory : TrajectoryType)
    (h : events.length = m.packet_size_) :
    updateDSI accumulateGridValueAt fuel m st events trajectory =
      some (true, m, { event_locations_z0 := [], camera_centers := [] }) := by
  unfold updateDSI
  rw [if_neg (by omega), packetLoop_done _ _ _ _ _ _ (by simp; omega)]
  simp [fillVoxelGrid_no_centers]

/-- Witness of C3: two events, packet size two, a pose at every timestamp. -/
theorem updateDSI_exactly_one_packet_witness :
    [(⟨0, 0, 0⟩ : Event), ⟨1, 0, 1⟩].length = (exampleMapper 2).packet_size_ ∧
      updateDSI recordVote 5 (exampleMapper 2) emptyStatics [⟨0, 0, 0⟩, ⟨1, 0, 1⟩]
        identityTrajectory =
        some (true, exampleMapper 2, { event_locations_z0 := [], camera_centers := [] }) :=
  ⟨by decide,
    updateDSI_exactly_one_packet recordVote 5 (exampleMapper 2) emptyStatics
      [⟨0, 0, 0⟩, ⟨1, 0, 1⟩] identityTrajectory (by decide)⟩

/-! ## Projective geometry in exact arithmetic -/

/-- C4: the closed-form re-projection of `fillVoxelGrid` is geometrically exact. Let `X0`
be a point of the plane `Z = z0` whose virtual-camera pixel is `(x, y)`, that is
`K_virtual * X0 = z0 * (x, y, 1)`, let `zi` be non-zero and `z0` differ from `C.z`. Then
Eq. (15) with the coefficients of lines 142-145 is defined and yields the pixel of the
point where the line through `C` and `X0` meets the plane `Z = zi`. -/
theorem eq15_geometrically_exact (params : Fin 8 → ℚ) (C X0 : Vector3f) (zi x y : ℚ)
    (hzi : zi ≠ 0) (hC : X0 2 ≠ C 2)
    (hpix : (K_virtual params).mulVec X0 = X0 2 • ![x, y, 1]) :
    (eq15 (some (eq15Coefficients (X0 2) zi params C)) Coefficients.bx (some x),
      eq15 (some (eq15Coefficients (X0 2) zi params C)) Coefficients.b_y (some y)) =
      (some (pixelOf params (meetPlane C X0 zi)).1, some (pixelOf params (meetPlane C X0 zi)).2) := by
  rw [K_virtual_mulVec] at hpix
  have h0 := congrFun hpix 0
  have h1 := congrFun hpix 1
  simp at h0 h1
  have hd2 : X0 2 - C 2 ≠ 0 := sub_ne_zero.mpr hC
  have hd : zi * (X0 2 - C 2) ≠ 0 := mul_ne_zero hzi hd2
  have hm2 : meetPlane C X0 zi 2 = zi := by
    unfold meetPlane
    field_simp
  rw [pixelOf_eq, hm2]
  simp only [eq15, divide, eq15Coefficients, if_neg hd]
  refine Prod.ext (congrArg some ?_) (congrArg some ?_)
  · simp only [meetPlane]
    field_simp
    linear_combination (-(zi * (X0 2 - C 2) * (zi - C 2))) * h0
  · simp only [meetPlane]
    field_simp
    linear_combination (-(zi * (X0 2 - C 2) * (zi - C 2))) * h1

/-- Witness of C4: unit intrinsics with principal point (1, 1), `C = (1, 0, 0)`,
`X0 = (1, 1, 1)` seen at pixel (2, 2), and `zi = 2`. -/
theorem eq15_geometrically_exact_witness :
    (eq15 (some (eq15Coefficients 1 2 exampleParams ![1, 0, 0]))
        Coefficients.bx (some 2),
      eq15 (some (eq15Coefficients 1 2 exampleParams ![1, 0, 0]))
        Coefficients.b_y (some 2)) =
      (some (pixelOf exampleParams (meetPlane ![1, 0, 0] ![1, 1, 1] 2)).1,
        some (pixelOf exampleParams (meetPlane ![1, 0, 0] ![1, 1, 1] 2)).2) :=
  eq15_geometrically_exact exampleParams ![1, 0, 0] ![1, 1, 1] 2 2 2
    (by norm_num) (by simp)
    (by
      rw [K_virtual_mulVec]
      funext i
      fin_cases i <;> simp <;> norm_num)

/-- C5: the per-packet homography warps an event onto the baseline plane. Let
`H_z0_inv = z0 * R` with `t` added to its third column be invertible, let `(X, Y, z0)` be
a point of the plane `Z = z0` of the reference frame, and let `r` be the normalized
coordinates of its image `R * (X, Y, z0) + t` in the event camera (third component
non-zero). Then `H_z0_px` is defined and the warped location of `r` is
`(fx * X / z0 + cx, fy * Y / z0 + cy, 1, 0)`, the virtual-camera pixel of the point. -/
theorem warp_onto_baseline_plane (params : Fin 8 → ℚ) (R : Matrix3f) (t : Vector3f)
    (z0 X Y : ℚ) (r : Vector2f)
    (hdet : (H_z0_inv R t z0).det ≠ 0)
    (hw : (R.mulVec ![X, Y, z0] + t) 2 ≠ 0)
    (hr0 : r 0 = (R.mulVec ![X, Y, z0] + t) 0 / (R.mulVec ![X, Y, z0] + t) 2)
    (hr1 : r 1 = (R.mulVec ![X, Y, z0] + t) 1 / (R.mulVec ![X, Y, z0] + t) 2) :
    ∃ H, H_z0_px params R t z0 = some H ∧
      warpPoint H r =
        some ![params 4 * X / z0 + params 6, params 5 * Y / z0 + params 7, 1, 0] := by
  have hz : z0 ≠ 0 := by
    intro h
    rw [h] at hdet
    exact hdet (H_z0_inv_det_zero R t)
  refine ⟨K_virtual params * (H_z0_inv R t z0)⁻¹, ?_, ?_⟩
  · unfold H_z0_px
    rw [inverse_of_det_ne_zero _ hdet]
    rfl
  · set q := R.mulVec ![X, Y, z0] + t with hq
    have hvec : (![r 0, r 1, 1] : Vector3f) = (q 2)⁻¹ • q := by
      funext i
      fin_cases i
      · simp [hr0, div_eq_inv_mul]
      · simp [hr1, div_eq_inv_mul]
      · simp [hw]
    have hunit : IsUnit (H_z0_inv R t z0).det := isUnit_iff_ne_zero.mpr hdet
    have hH : (K_virtual params * (H_z0_inv R t z0)⁻¹).mulVec ![r 0, r 1, 1] =
        (q 2)⁻¹ • ![params 4 * (X / z0) + params 6, params 5 * (Y / z0) + params 7, 1] := by
      rw [hvec, Matrix.mulVec_smul, hq, ← H_z0_inv_mulVec R t z0 X Y hz, ← Matrix.mulVec_mulVec,
        Matrix.mulVec_mulVec _ (H_z0_inv R t z0)⁻¹, Matrix.nonsing_inv_mul _ hunit,
        Matrix.one_mulVec, K_virtual_mulVec]
      simp
    unfold warpPoint
    simp only [H_z0_px_4x4_mulVec, hH]
    have hq2 : (q 2)⁻¹ ≠ 0 := inv_ne_zero hw
    simp [hq2]
    funext i
    fin_cases i
    · simp
      field_simp
      ring
    · simp
      field_simp
      ring
    · simp [hw]
    · simp

/-- Witness of C5: identity rotation, translation (1, 0, 0), `z0 = 1`, the point
(1, 2, 1) imaged at (2, 2, 1). -/
theorem warp_onto_baseline_plane_witness :
    ∃ H, H_z0_px exampleParams 1 ![1, 0, 0] 1 = some H ∧
      warpPoint H ![2, 2] = some ![1 * 1 / 1 + 1, 1 * 2 / 1 + 1, 1, 0] :=
  warp_onto_baseline_plane exampleParams 1 ![1, 0, 0] 1 1 2 ![2, 2]
    (by simp [H_z0_inv, Matrix.det_fin_three])
    (by simp)
    (by simp; norm_num)
    (by simp)


/-! ## Shared lemmas on degenerate packets and slices -/

theorem eq15_of_d_zero (c : Coefficients) (b : Coefficients → ℚ) (X : Option ℚ) (h : c.d = 0) :
    eq15 (some c) b X = none := by
  cases X <;> simp [eq15, divide, h]

theorem voteBatch_of_d_zero {σ : Type} (vote : Option ℚ → Option ℚ → σ → σ)
    (locs : List (Option Vector4f)) (c : Coefficients) (pe : Nat) (g : σ) (h : c.d = 0) :
    voteBatch vote locs (some c) pe g = (vote none none)^[N] g := by
  unfold voteBatch
  simp only [eq15_of_d_zero _ _ _ h]
  rw [foldl_const_iterate]
  simp

theorem foldl_pointer_iterate {σ : Type} (f : σ → σ) (step : Nat) (l : List Nat) (s : Nat × σ) :
    l.foldl (fun (t : Nat × σ) _ => (t.1 + step, f^[step] t.2)) s =
      (s.1 + l.length * step, f^[l.length * step] s.2) := by
  induction l generalizing s with
  | nil => simp
  | cons b l ih =>
    rw [List.foldl_cons, ih]
    simp only [List.length_cons]
    refine Prod.ext ?_ ?_
    · simp only []
      ring
    · simp only []
      rw [← Function.iterate_add_apply]
      congr 1
      ring

theorem processPacket_of_d_zero {σ : Type} (vote : Option ℚ → Option ℚ → σ → σ)
    (m : MapperEMVS σ) (locs : List (Option Vector4f)) (depth_plane : Nat)
    (s : Nat × σ) (C : Option Vector3f) (c : Coefficients)
    (hc : coefficients m depth_plane C = some c) (h : c.d = 0) :
    processPacket vote m locs depth_plane s C =
      (s.1 + m.packet_size_ / N * N, (vote none none)^[m.packet_size_ / N * N] s.2) := by
  unfold processPacket
  rw [hc]
  simp only [voteBatch_of_d_zero vote locs c _ _ h]
  rw [foldl_pointer_iterate]
  simp

theorem foldl_planeIteration_apply {σ : Type} (vote : Option ℚ → Option ℚ → σ → σ)
    (m : MapperEMVS σ) (locs : List (Option Vector4f)) (centers : List (Option Vector3f))
    (order : List Nat) (hnd : order.Nodup) (dsi : Nat → σ) (i : Nat) :
    order.foldl (planeIteration vote m locs centers) dsi i =
      if i ∈ order then processPlane vote m locs centers i (dsi i) else dsi i := by
  induction order generalizing dsi with
  | nil => simp
  | cons j js ih =>
    rw [List.foldl_cons, ih (List.nodup_cons.mp hnd).2]
    have hj : j ∉ js := (List.nodup_cons.mp hnd).1
    by_cases hij : i = j
    · subst hij
      simp [hj, planeIteration]
    · have hne : i ≠ j := hij
      simp [planeIteration, Function.update_noteq hne, hij]

theorem fillVoxelGrid_slice {σ : Type} (vote : Option ℚ → Option ℚ → σ → σ)
    (m : MapperEMVS σ) (locs : List (Option Vector4f)) (centers : List (Option Vector3f))
    (i : Nat) :
    (fillVoxelGrid vote m locs centers).dsi_ i =
      if i < m.raw_depths_vec_.length then processPlane vote m locs centers i (m.dsi_ i)
      else m.dsi_ i := by
  unfold fillVoxelGrid fillVoxelGridInOrder
  simp only []
  rw [foldl_planeIteration_apply vote m locs centers _ (List.nodup_range _)]
  simp

/-! ## Disjoint slices -/

/-- C7: the iteration of the depth-plane loop for plane `i` leaves every slice `j ≠ i` as
it was, and the slice it writes depends on the grid only through slice `i` (the other
operands are the shared inputs). Consequently running the iterations in any order that
is a permutation of `0 .. raw_depths_vec_.size() - 1` gives the grid that the
sequential loop gives. -/
theorem fillVoxelGrid_disjoint_slices {σ : Type}
    (accumulateGridValueAt : Option ℚ → Option ℚ → σ → σ) (m : MapperEMVS σ)
    (event_locations_z0 : List (Option Vector4f)) (camera_centers : List (Option Vector3f))
    (order : List Nat) (hperm : order.Perm (List.range m.raw_depths_vec_.length)) :
    (∀ (dsi : Nat → σ) (i j : Nat), j ≠ i →
        planeIteration accumulateGridValueAt m event_locations_z0 camera_centers dsi i j =
          dsi j) ∧
      (∀ (dsi dsi2 : Nat → σ) (i : Nat), dsi i = dsi2 i →
        planeIteration accumulateGridValueAt m event_locations_z0 camera_centers dsi i i =
          planeIteration accumulateGridValueAt m event_locations_z0 camera_centers dsi2 i i) ∧
      fillVoxelGridInOrder accumulateGridValueAt order m event_locations_z0 camera_centers =
        fillVoxelGrid accumulateGridValueAt m event_locations_z0 camera_centers := by
  refine ⟨?_, ?_, ?_⟩
  · intro dsi i j hji
    unfold planeIteration
    exact Function.update_noteq hji _ _
  · intro dsi dsi2 i h
    unfold planeIteration
    simp [h]
  · unfold fillVoxelGrid fillVoxelGridInOrder
    congr 1
    funext i
    rw [foldl_planeIteration_apply _ _ _ _ _ (hperm.nodup_iff.mpr (List.nodup_range _)),
      foldl_planeIteration_apply _ _ _ _ _ (List.nodup_range _)]
    simp only [hperm.mem_iff]

/-- Witness of C7: the two depth planes of the example mapper in the order 1, 0. -/
theorem fillVoxelGrid_disjoint_slices_witness :
    fillVoxelGridInOrder recordVote [1, 0] (exampleMapper 128)
        (List.replicate 128 (some ![1, 1, 1, 0])) [some ![0, 0, 0]] =
      fillVoxelGrid recordVote (exampleMapper 128)
        (List.replicate 128 (some ![1, 1, 1, 0])) [some ![0, 0, 0]] :=
  (fillVoxelGrid_disjoint_slices recordVote (exampleMapper 128)
    (List.replicate 128 (some ![1, 1, 1, 0])) [some ![0, 0, 0]] [1, 0]
    (by decide)).2.2

/-! ## Shared lemmas on the steps of the packet loop -/

theorem packetStep_miss {σ : Type} (m : MapperEMVS σ) (events : List Event)
    (trajectory : TrajectoryType) (T_rv_w : Option Matrix4d) (s : LoopState)
    (hmiss : trajectory.getPoseAt
      (events.getD (s.current_event_ + m.packet_size_ / 2) default).ts = none) :
    packetStep m events trajectory T_rv_w s =
      { s with current_event_ := s.current_event_ + 1 } := by
  simp only [packetStep, hmiss]

theorem packetStep_hit_cursor {σ : Type} (m : MapperEMVS σ) (events : List Event)
    (trajectory : TrajectoryType) (T_rv_w : Option Matrix4d) (s : LoopState)
    (T_w_ev : Matrix4d)
    (hhit : trajectory.getPoseAt
      (events.getD (s.current_event_ + m.packet_size_ / 2) default).ts = some T_w_ev) :
    (packetStep m events trajectory T_rv_w s).current_event_ =
      s.current_event_ + m.packet_size_ := by
  simp only [packetStep, hhit]

theorem packetStep_cursor {σ : Type} (m : MapperEMVS σ) (events : List Event)
    (trajectory : TrajectoryType) (T_rv_w : Option Matrix4d) (s : LoopState)
    (hps : 1 ≤ m.packet_size_) :
    s.current_event_ + 1 ≤ (packetStep m events trajectory T_rv_w s).current_event_ := by
  cases h : trajectory.getPoseAt
      (events.getD (s.current_event_ + m.packet_size_ / 2) default).ts with
  | none => rw [packetStep_miss _ _ _ _ _ h]
  | some T =>
    rw [packetStep_hit_cursor _ _ _ _ _ T h]
    omega

theorem packetLoop_terminates {σ : Type} (m : MapperEMVS σ) (events : List Event)
    (trajectory : TrajectoryType) (T_rv_w : Option Matrix4d) (hps : 1 ≤ m.packet_size_)
    (fuel : Nat) (s : LoopState) (hfuel : events.length ≤ s.current_event_ + fuel) :
    ∃ s2, packetLoop m events trajectory T_rv_w fuel s = some s2 := by
  induction fuel generalizing s with
  | zero => exact ⟨s, packetLoop_done _ _ _ _ _ _ (by omega)⟩
  | succ k ih =>
    by_cases h : s.current_event_ + m.packet_size_ < events.length
    · rw [packetLoop_step _ _ _ _ _ _ h]
      have := packetStep_cursor m events trajectory T_rv_w s hps
      exact ih _ (by omega)
    · exact ⟨s, packetLoop_done _ _ _ _ _ _ h⟩


theorem recordVote_iterate (x y : Option ℚ) (n : Nat) (g : VoteLog) :
    (recordVote x y)^[n] g = g ++ List.replicate n (x, y) := by
  induction n generalizing g with
  | zero => simp
  | succ k ih =>
    rw [Function.iterate_succ_apply, ih]
    simp [recordVote, List.replicate_succ]

/-! ## Degenerate denominators -/

/-- C6, as amended: `fillVoxelGrid` has no guard on the denominator. For a depth plane
and a packet whose `d = zi * (z0 - C.z)` is zero, the packet body still runs its
`packet_size_ / N` batches: it calls `accumulateGridValueAt` once for each of their
`packet_size_ / N * N` events, each time with two undefined coordinates (the quotients by
`d`), and advances the pointer by `packet_size_ / N * N` exactly as for any other
packet. What the slice becomes is what `accumulateGridValueAt` makes of those calls. -/
theorem fillVoxelGrid_degenerate_packet {σ : Type}
    (accumulateGridValueAt : Option ℚ → Option ℚ → σ → σ) (m : MapperEMVS σ)
    (event_locations_z0 : List (Option Vector4f)) (depth_plane : Nat) (z0 zi : ℚ)
    (C : Vector3f) (s : Nat × σ)
    (hz0 : m.raw_depths_vec_[0]? = some z0)
    (hzi : m.raw_depths_vec_[depth_plane]? = some zi)
    (hd : zi * (z0 - C 2) = 0) :
    processPacket accumulateGridValueAt m event_locations_z0 depth_plane s (some C) =
      (s.1 + m.packet_size_ / N * N,
        (accumulateGridValueAt none none)^[m.packet_size_ / N * N] s.2) :=
  processPacket_of_d_zero accumulateGridValueAt m event_locations_z0 depth_plane s (some C)
    (eq15Coefficients z0 zi m.camera_virtual_params_ C)
    (by simp [coefficients, hz0, hzi]) hd

/-- Witness of C6: packet size 128, depth plane 1 at `zi = 2`, `z0 = 1`, camera center
(0, 0, 1). -/
theorem fillVoxelGrid_degenerate_packet_witness :
    processPacket recordVote (exampleMapper 128) (List.replicate 128 (some ![3, 3, 1, 0])) 1
        (0, []) (some ![0, 0, 1]) =
      (0 + (exampleMapper 128).packet_size_ / N * N,
        (recordVote none none)^[(exampleMapper 128).packet_size_ / N * N] []) :=
  fillVoxelGrid_degenerate_packet recordVote (exampleMapper 128)
    (List.replicate 128 (some ![3, 3, 1, 0])) 1 1 2 ![0, 0, 1] (0, [])
    (by simp [exampleMapper]) (by simp [exampleMapper]) (by simp)

/-- C6, counterexample: with packet size 128, the depth planes 1 and 2, and one packet of
128 events warped to (3, 3) whose camera center (0, 0, 1) lies on the baseline plane
`Z = z0 = 1`, the denominator for the plane `zi = 2` is zero while the numerators
`3 * a + bx` and `3 * a + by` are 2. The slice of that plane, empty before the call,
holds 128 votes after it, each at undefined coordinates. The slice here keeps the calls
made on it. -/
theorem fillVoxelGrid_votes_when_d_zero :
    (eq15Coefficients 1 2 exampleParams ![0, 0, 1]).d = 0 ∧
      3 * (eq15Coefficients 1 2 exampleParams ![0, 0, 1]).a +
        (eq15Coefficients 1 2 exampleParams ![0, 0, 1]).bx = 2 ∧
      3 * (eq15Coefficients 1 2 exampleParams ![0, 0, 1]).a +
        (eq15Coefficients 1 2 exampleParams ![0, 0, 1]).b_y = 2 ∧
      (exampleMapper 128).dsi_ 1 = [] ∧
      (fillVoxelGrid recordVote (exampleMapper 128) (List.replicate 128 (some ![3, 3, 1, 0]))
        [some ![0, 0, 1]]).dsi_ 1 = List.replicate 128 (none, none) := by
  refine ⟨by simp [eq15Coefficients], by simp [eq15Coefficients]; norm_num,
    by simp [eq15Coefficients]; norm_num, rfl, ?_⟩
  rw [fillVoxelGrid_slice, if_pos (by simp [exampleMapper])]
  unfold processPlane
  rw [List.foldl_cons, List.foldl_nil,
    processPacket_of_d_zero recordVote (exampleMapper 128) _ 1 _ _
      (eq15Coefficients 1 2 exampleParams ![0, 0, 1])
      (by simp [coefficients, exampleMapper]) (by simp [eq15Coefficients])]
  simp only [recordVote_iterate]
  simp [exampleMapper, N]

/-! ## Pose-resolution miss -/

/-- C8: when the loop is entered at cursor `c` and the trajectory has no pose at the
timestamp of event `c + packet_size_ / 2`, the iteration changes nothing but the cursor,
which becomes `c + 1`: no camera center and no warped location is recorded, and the loop
goes on from `c + 1`. The miss is not reported: every result of the call has status
`true`, and for a packet size of at least one and fuel of at least `events.size()` the
call does return. -/
theorem updateDSI_pose_miss {σ : Type}
    (accumulateGridValueAt : Option ℚ → Option ℚ → σ → σ) (m : MapperEMVS σ) (st : Statics)
    (events : List Event) (trajectory : TrajectoryType) (T_rv_w : Option Matrix4d)
    (fuel : Nat) (s : LoopState)
    (hcond : s.current_event_ + m.packet_size_ < events.length)
    (hmiss : trajectory.getPoseAt
      (events.getD (s.current_event_ + m.packet_size_ / 2) default).ts = none) :
    packetStep m events trajectory T_rv_w s =
        { s with current_event_ := s.current_event_ + 1 } ∧
      packetLoop m events trajectory T_rv_w (fuel + 1) s =
        packetLoop m events trajectory T_rv_w fuel
          { s with current_event_ := s.current_event_ + 1 } ∧
      (∀ r, updateDSI accumulateGridValueAt fuel m st events trajectory = some r →
        r.1 = true) ∧
      (1 ≤ m.packet_size_ → events.length ≤ fuel →
        ∃ r, updateDSI accumulateGridValueAt fuel m st events trajectory = some r ∧
          r.1 = true) := by
  have hsize : ¬ events.length < m.packet_size_ := by omega
  refine ⟨packetStep_miss _ _ _ _ _ hmiss, ?_, ?_, ?_⟩
  · rw [packetLoop_step _ _ _ _ _ _ hcond, packetStep_miss _ _ _ _ _ hmiss]
  · intro r hr
    unfold updateDSI at hr
    rw [if_neg hsize] at hr
    cases hl : packetLoop m events trajectory (inverse m.T_w_rv_) fuel
        { current_event_ := 0, event_locations_z0 := [], camera_centers := [] } with
    | none => rw [hl] at hr; cases hr
    | some s2 =>
      rw [hl] at hr
      cases hr
      rfl
  · intro hps hfuel
    obtain ⟨s2, hs2⟩ := packetLoop_terminates m events trajectory (inverse m.T_w_rv_) hps fuel
      { current_event_ := 0, event_locations_z0 := [], camera_centers := [] }
      (by simp; omega)
    refine ⟨(true,
      fillVoxelGrid accumulateGridValueAt m s2.event_locations_z0 s2.camera_centers,
      { event_locations_z0 := s2.event_locations_z0, camera_centers := s2.camera_centers }),
      ?_, rfl⟩
    unfold updateDSI
    rw [if_neg hsize, hs2]

/-- Witness of C8: three events, packet size one, a trajectory without poses. -/
theorem updateDSI_pose_miss_witness :
    packetStep (exampleMapper 1) [⟨0, 0, 0⟩, ⟨1, 0, 1⟩, ⟨0, 1, 2⟩] emptyTrajectory none
        { current_event_ := 0, event_locations_z0 := [], camera_centers := [] } =
      { current_event_ := 0 + 1, event_locations_z0 := [], camera_centers := [] } :=
  (updateDSI_pose_miss recordVote (exampleMapper 1) emptyStatics
    [⟨0, 0, 0⟩, ⟨1, 0, 1⟩, ⟨0, 1, 2⟩] emptyTrajectory none 3
    { current_event_ := 0, event_locations_z0 := [], camera_centers := [] }
    (by decide) rfl).1


/-! ## Shared lemmas on the pixel loops -/

theorem foldl_append_flatMap {α β : Type} (f : List β → α → List β) (g : α → List β)
    (h : ∀ v x, f v x = v ++ g x) (l : List α) (v : List β) :
    l.foldl f v = v ++ l.flatMap g := by
  induction l generalizing v with
  | nil => simp
  | cons a l ih => rw [List.foldl_cons, ih, h, List.flatMap_cons, List.append_assoc]

theorem flatMap_congr_mem {α β : Type} (l : List α) (f g : α → List β)
    (h : ∀ x, x ∈ l → f x = g x) : l.flatMap f = l.flatMap g := by
  induction l with
  | nil => rfl
  | cons a l ih =>
    rw [List.flatMap_cons, List.flatMap_cons, h a (List.mem_cons_self a l),
      ih (fun x hx => h x (List.mem_cons_of_mem a hx))]

theorem flatMap_ite_singleton {α β : Type} (p : α → Bool) (h : α → β) (l : List α) :
    l.flatMap (fun x => if p x then [h x] else []) = (l.filter p).map h := by
  induction l with
  | nil => rfl
  | cons a l ih =>
    rw [List.flatMap_cons, ih]
    cases hp : p a <;> simp [List.filter_cons, hp]

theorem filter_map_flatMap {α β γ : Type} (p : β → Bool) (h : β → γ) (f : α → List β)
    (l : List α) :
    ((l.flatMap f).filter p).map h = l.flatMap (fun a => ((f a).filter p).map h) := by
  induction l with
  | nil => rfl
  | cons a l ih =>
    rw [List.flatMap_cons, List.filter_append, List.map_append, ih, List.flatMap_cons]

theorem getDepthPointPixel_append {σ : Type} (m : MapperEMVS σ) (depth_map : Mat ℚ)
    (mask : Mat Nat) (y x : Nat) (vdp : List DepthPoint) :
    getDepthPointPixel m depth_map mask y x vdp =
      vdp ++ getDepthPointPixel m depth_map mask y x [] := by
  unfold getDepthPointPixel
  by_cases hm : 0 < mask.at_ y x
  · simp only [if_pos hm]
    cases xyz_rv (m.camera_virtual_ptr_.liftProjective ![(x : ℚ), (y : ℚ)])
        (depth_map.at_ y x) with
    | none => simp
    | some v =>
      by_cases hv : v 2 ≤ 1 / 1000000
      · simp only [if_pos hv, List.append_nil]
      · simp only [if_neg hv, List.nil_append]
  · simp [hm]

theorem getDepthPoint_eq_flatMap {σ : Type} (m : MapperEMVS σ) (depth_map : Mat ℚ)
    (mask : Mat Nat) (vdp : List DepthPoint) :
    getDepthPoint m depth_map mask vdp =
      (List.range depth_map.rows).flatMap fun y =>
        (List.range depth_map.cols).flatMap fun x =>
          getDepthPointPixel m depth_map mask y x [] := by
  unfold getDepthPoint
  rw [foldl_append_flatMap _
    (fun y => (List.range depth_map.cols).flatMap fun x =>
      getDepthPointPixel m depth_map mask y x [])]
  · simp
  · intro v y
    rw [foldl_append_flatMap _ (fun x => getDepthPointPixel m depth_map mask y x [])]
    intro w x
    exact getDepthPointPixel_append m depth_map mask y x w

theorem getDepthPointPixel_of_ray {σ : Type} (m : MapperEMVS σ) (depth_map : Mat ℚ)
    (mask : Mat Nat) (y x : Nat)
    (hray : 0 < mask.at_ y x →
      m.camera_virtual_ptr_.liftProjective ![(x : ℚ), (y : ℚ)] 2 ≠ 0) :
    getDepthPointPixel m depth_map mask y x [] =
      if decide (0 < mask.at_ y x ∧ 1 / 1000000 < depth_map.at_ y x) then
        [depthPointRecord m depth_map y x]
      else [] := by
  unfold getDepthPointPixel
  by_cases hm : 0 < mask.at_ y x
  · have hP := hray hm
    have hz : m.camera_virtual_ptr_.liftProjective ![(x : ℚ), (y : ℚ)] 2 /
        m.camera_virtual_ptr_.liftProjective ![(x : ℚ), (y : ℚ)] 2 * depth_map.at_ y x =
        depth_map.at_ y x := by
      rw [div_self hP, one_mul]
    simp only [if_pos hm, xyz_rv, if_neg hP, hz]
    by_cases hd : depth_map.at_ y x ≤ 1 / 1000000
    · have hnot : ¬ (0 < mask.at_ y x ∧ 1 / 1000000 < depth_map.at_ y x) :=
        fun h => absurd hd (not_le.mpr h.2)
      rw [if_pos hd, decide_eq_false hnot]
      rfl
    · have hlt : 1 / 1000000 < depth_map.at_ y x := not_le.mp hd
      have hne : depth_map.at_ y x ≠ 0 := by
        intro h0
        rw [h0] at hlt
        norm_num at hlt
      rw [if_neg hd, decide_eq_true (And.intro hm hlt)]
      simp only [depthPointRecord, divide, if_neg hne]
      rfl
  · simp [hm]

/-! ## Point generator -/

/-- C10: whatever the output vector held before, `getDepthPoint` returns exactly the
records of the pixels `(y, x)` with `mask(y, x) > 0` and `depth_map(y, x) > 1e-6`, in
row-major order, each record being the one the specification describes: pixel `(x, y)`,
inverse depth `1 / depth`, variance `0.1`, the point `ray / ray.z * depth` and the
reference pose. The rays of the mask-valid pixels are assumed to have non-zero `z`. -/
theorem getDepthPoint_records {σ : Type} (m : MapperEMVS σ) (depth_map : Mat ℚ)
    (mask : Mat Nat) (vdp : List DepthPoint)
    (hray : ∀ y x, y < depth_map.rows → x < depth_map.cols → 0 < mask.at_ y x →
      m.camera_virtual_ptr_.liftProjective ![(x : ℚ), (y : ℚ)] 2 ≠ 0) :
    getDepthPoint m depth_map mask vdp =
      ((rowMajorPixels depth_map.rows depth_map.cols).filter fun yx =>
          decide (0 < mask.at_ yx.1 yx.2 ∧ 1 / 1000000 < depth_map.at_ yx.1 yx.2)).map
        fun yx => depthPointRecord m depth_map yx.1 yx.2 := by
  rw [getDepthPoint_eq_flatMap, rowMajorPixels, filter_map_flatMap]
  apply flatMap_congr_mem
  intro y hy
  rw [List.filter_map, List.map_map, ← flatMap_ite_singleton]
  apply flatMap_congr_mem
  intro x hx
  rw [getDepthPointPixel_of_ray m depth_map mask y x
    (hray y x (List.mem_range.mp hy) (List.mem_range.mp hx))]
  rfl

/-- Witness of C10: a 1 x 2 depth map with depths 2 and 0 under a full mask. -/
theorem getDepthPoint_records_witness :
    getDepthPoint (exampleMapper 1) exampleDepthMap (fullMask 1 2) [] =
      ((rowMajorPixels exampleDepthMap.rows exampleDepthMap.cols).filter fun yx =>
          decide (0 < (fullMask 1 2).at_ yx.1 yx.2 ∧
            1 / 1000000 < exampleDepthMap.at_ yx.1 yx.2)).map
        fun yx => depthPointRecord (exampleMapper 1) exampleDepthMap yx.1 yx.2 :=
  getDepthPoint_records (exampleMapper 1) exampleDepthMap (fullMask 1 2) []
    (by intro y x _ _ _; simp [exampleMapper])

/-- C9, the code at its failing input: for a 1 x 1 depth map of depth zero under a valid
mask, `getDepthPoint` returns no record, while the point cloud of `getPointcloud` before
the outlier filter holds the point (0, 0, 0), whose intensity `1 / z` is undefined. -/
theorem getPointcloud_keeps_nonpositive_depth :
    getDepthPoint (exampleMapper 1) zeroDepthMap (fullMask 1 1) [] = [] ∧
      convertDepthMapToPointcloud (exampleMapper 1) zeroDepthMap (fullMask 1 1) =
        [{ x := some 0, y := some 0, z := some 0, intensity := none }] := by
  constructor
  · simp [getDepthPoint, getDepthPointPixel, xyz_rv, zeroDepthMap, fullMask, exampleMapper]
  · simp [convertDepthMapToPointcloud, getPointcloudPixel, xyz_rv, zeroDepthMap, fullMask,
      exampleMapper, divide, List.range_succ]

/-! ## Shared lemmas on `removeMaskBoundary` -/

theorem foldl_setZero_cols (rows cols : Nat) (b : Int) (y : Nat) (xs : List Nat) (mk : Mat Nat) :
    (xs.foldl (fun mk2 x => if inBorder rows cols b y x then setZero mk2 y x else mk2) mk).rows
        = mk.rows ∧
      (xs.foldl (fun mk2 x => if inBorder rows cols b y x then setZero mk2 y x else mk2) mk).cols
        = mk.cols ∧
      ∀ y2 x2,
        (xs.foldl (fun mk2 x => if inBorder rows cols b y x then setZero mk2 y x else mk2)
          mk).at_ y2 x2 =
          if y2 = y ∧ x2 ∈ xs ∧ inBorder rows cols b y x2 = true then 0 else mk.at_ y2 x2 := by
  induction xs generalizing mk with
  | nil => simp
  | cons x xs ih =>
    rw [List.foldl_cons]
    obtain ⟨h1, h2, h3⟩ := ih (if inBorder rows cols b y x then setZero mk y x else mk)
    refine ⟨?_, ?_, ?_⟩
    · rw [h1]; split <;> rfl
    · rw [h2]; split <;> rfl
    · intro y2 x2
      rw [h3]
      by_cases hb : inBorder rows cols b y x = true
      · simp only [hb, if_true, setZero, List.mem_cons]
        by_cases hy : y2 = y
        · by_cases hx : x2 = x
          · subst hx; simp [hy, hb]
          · simp [hy, hx]
        · simp [hy]
      · simp only [hb, List.mem_cons]
        by_cases hy : y2 = y
        · by_cases hx : x2 = x
          · subst hx; simp [hy, hb]
          · simp [hy, hx]
        · simp [hy]

theorem foldl_setZero_rows (rows cols : Nat) (b : Int) (xs ys : List Nat) (mk : Mat Nat) :
    (ys.foldl (fun mk1 y =>
        xs.foldl (fun mk2 x => if inBorder rows cols b y x then setZero mk2 y x else mk2) mk1)
      mk).rows = mk.rows ∧
    (ys.foldl (fun mk1 y =>
        xs.foldl (fun mk2 x => if inBorder rows cols b y x then setZero mk2 y x else mk2) mk1)
      mk).cols = mk.cols ∧
    ∀ y2 x2,
      (ys.foldl (fun mk1 y =>
          xs.foldl (fun mk2 x => if inBorder rows cols b y x then setZero mk2 y x else mk2) mk1)
        mk).at_ y2 x2 =
        if y2 ∈ ys ∧ x2 ∈ xs ∧ inBorder rows cols b y2 x2 = true then 0 else mk.at_ y2 x2 := by
  induction ys generalizing mk with
  | nil => simp
  | cons y ys ih =>
    rw [List.foldl_cons]
    obtain ⟨h1, h2, h3⟩ := ih
      (xs.foldl (fun mk2 x => if inBorder rows cols b y x then setZero mk2 y x else mk2) mk)
    obtain ⟨g1, g2, g3⟩ := foldl_setZero_cols rows cols b y xs mk
    refine ⟨h1.trans g1, h2.trans g2, ?_⟩
    intro y2 x2
    rw [h3, g3]
    by_cases hy : y2 = y
    · subst hy
      by_cases hm : x2 ∈ xs
      · by_cases hb : inBorder rows cols b y2 x2 = true
        · simp [hm, hb]
        · simp [hm, hb]
      · simp [hm]
    · simp [hy]

theorem removeMaskBoundary_at (mask : Mat Nat) (b : Int) (y x : Nat)
    (hy : y < mask.rows) (hx : x < mask.cols) :
    (removeMaskBoundary mask b).at_ y x =
      if inBorder mask.rows mask.cols b y x then 0 else mask.at_ y x := by
  unfold removeMaskBoundary
  rw [(foldl_setZero_rows mask.rows mask.cols b _ _ mask).2.2]
  simp [hy, hx]

/-! ## Border removal -/

/-- C11: after `removeMaskBoundary(mask, b)` the shape of the mask is unchanged, and a
pixel `(y, x)` of the mask is 0 when `x <= b` or `x >= cols - b` or `y <= b` or
`y >= rows - b`, and keeps its value otherwise (for every `int` value of `b`). With
`b = max(kernel_size / 2, 1)` every pixel less than `kernel_size / 2` away from one of the
four sides is 0. -/
theorem removeMaskBoundary_band (mask : Mat Nat) (b kernel_size : Int) (y x : Nat)
    (hy : y < mask.rows) (hx : x < mask.cols) :
    (removeMaskBoundary mask b).rows = mask.rows ∧
      (removeMaskBoundary mask b).cols = mask.cols ∧
      (((x : Int) ≤ b ∨ (x : Int) ≥ (mask.cols : Int) - b ∨ (y : Int) ≤ b ∨
          (y : Int) ≥ (mask.rows : Int) - b) →
        (removeMaskBoundary mask b).at_ y x = 0) ∧
      (¬ ((x : Int) ≤ b ∨ (x : Int) ≥ (mask.cols : Int) - b ∨ (y : Int) ≤ b ∨
          (y : Int) ≥ (mask.rows : Int) - b) →
        (removeMaskBoundary mask b).at_ y x = mask.at_ y x) ∧
      (((x : Int) < Int.tdiv kernel_size 2 ∨
          (x : Int) ≥ (mask.cols : Int) - Int.tdiv kernel_size 2 ∨
          (y : Int) < Int.tdiv kernel_size 2 ∨
          (y : Int) ≥ (mask.rows : Int) - Int.tdiv kernel_size 2) →
        (removeMaskBoundary mask (border_size kernel_size)).at_ y x = 0) := by
  refine ⟨?_, ?_, ?_, ?_, ?_⟩
  · exact (foldl_setZero_rows mask.rows mask.cols b _ _ mask).1
  · exact (foldl_setZero_rows mask.rows mask.cols b _ _ mask).2.1
  · intro h
    rw [removeMaskBoundary_at mask b y x hy hx, if_pos]
    simpa [inBorder, or_assoc] using h
  · intro h
    rw [removeMaskBoundary_at mask b y x hy hx, if_neg]
    simpa [inBorder, or_assoc] using h
  · intro h
    have hk : Int.tdiv kernel_size 2 ≤ border_size kernel_size := le_max_left _ _
    rw [removeMaskBoundary_at mask _ y x hy hx, if_pos]
    simp only [inBorder, Bool.or_eq_true, decide_eq_true_eq]
    omega

/-- Witness of C11: the center pixel of a full 5 x 5 mask, border size 1, kernel size 3. -/
theorem removeMaskBoundary_band_witness :
    (removeMaskBoundary (fullMask 5 5) 1).rows = 5 ∧
      (removeMaskBoundary (fullMask 5 5) 1).at_ 2 2 = 1 :=
  ⟨(removeMaskBoundary_band (fullMask 5 5) 1 3 2 2 (by decide) (by decide)).1,
    (removeMaskBoundary_band (fullMask 5 5) 1 3 2 2 (by decide) (by decide)).2.2.2.1
      (by simp [fullMask])⟩

/-! ## Shared lemmas on `setupDSI` -/

theorem CHECK_GT_eq_some (a b : ℚ) : CHECK_GT a b = some () ↔ b < a := by
  unfold CHECK_GT
  by_cases h : a > b
  · simp [h]
  · simp [h]

theorem CHECK_GT_eq_none (a b : ℚ) : CHECK_GT a b = none ↔ a ≤ b := by
  unfold CHECK_GT
  by_cases h : a > b
  · simp [h]
  · simp [h]
    exact not_lt.mp h

theorem setupDSI_of_valid_range {σ : Type} (TypeDepthVector : ℚ → ℚ → Int → Option (List ℚ))
    (Grid3D : Int → Int → Int → Option (Nat → σ)) (imageWidth imageHeight : Int)
    (camera_params_ : Nat → ℚ) (shape : ShapeDSI)
    (h0 : 0 < shape.min_depth_) (h1 : shape.min_depth_ < shape.max_depth_) :
    setupDSI TypeDepthVector Grid3D imageWidth imageHeight camera_params_ shape =
      (TypeDepthVector shape.min_depth_ shape.max_depth_ shape.dimZ_).bind fun raw =>
        (Grid3D (if shape.dimX_ > 0 then shape.dimX_ else imageWidth)
            (if shape.dimY_ > 0 then shape.dimY_ else imageHeight) shape.dimZ_).map fun dsi =>
          { dsi_shape_ :=
              { shape with
                dimX_ := if shape.dimX_ > 0 then shape.dimX_ else imageWidth
                dimY_ := if shape.dimY_ > 0 then shape.dimY_ else imageHeight }
            raw_depths_vec_ := raw
            camera_virtual_params_ :=
              ![0, 0, 0, 0, camera_params_ 4, camera_params_ 4,
                (1 / 2) * ((if shape.dimX_ > 0 then shape.dimX_ else imageWidth : Int) : ℚ),
                (1 / 2) * ((if shape.dimY_ > 0 then shape.dimY_ else imageHeight : Int) : ℚ)]
            dsi_ := dsi } := by
  unfold setupDSI
  rw [(CHECK_GT_eq_some _ _).mpr h0, (CHECK_GT_eq_some _ _).mpr h1]
  cases TypeDepthVector shape.min_depth_ shape.max_depth_ shape.dimZ_ with
  | none => rfl
  | some raw =>
    simp only [Option.bind_some]
    cases Grid3D (if shape.dimX_ > 0 then shape.dimX_ else imageWidth)
        (if shape.dimY_ > 0 then shape.dimY_ else imageHeight) shape.dimZ_ with
    | none => rfl
    | some g => rfl

theorem setupDSI_of_invalid_range {σ : Type}
    (TypeDepthVector : ℚ → ℚ → Int → Option (List ℚ))
    (Grid3D : Int → Int → Int → Option (Nat → σ)) (imageWidth imageHeight : Int)
    (camera_params_ : Nat → ℚ) (shape : ShapeDSI)
    (h : shape.min_depth_ ≤ 0 ∨ shape.max_depth_ ≤ shape.min_depth_) :
    setupDSI TypeDepthVector Grid3D imageWidth imageHeight camera_params_ shape = none := by
  unfold setupDSI
  by_cases h0 : shape.min_depth_ ≤ 0
  · rw [(CHECK_GT_eq_none _ _).mpr h0]
  · have h1 : shape.max_depth_ ≤ shape.min_depth_ := h.resolve_left h0
    rw [(CHECK_GT_eq_some _ _).mpr (not_le.mp h0), (CHECK_GT_eq_none _ _).mpr h1]

/-! ## Configuration errors -/

/-- C12: `setupDSI` aborts whenever `min_depth <= 0` or `max_depth <= min_depth`; the two
depth-range checks pass together exactly when `0 < min_depth < max_depth`; and whenever
`setupDSI` returns, the depth range of the shape is the configured one and the depth
vector is the one built from the configured range and `dimZ`. -/
theorem setupDSI_depth_range {σ : Type} (TypeDepthVector : ℚ → ℚ → Int → Option (List ℚ))
    (Grid3D : Int → Int → Int → Option (Nat → σ)) (imageWidth imageHeight : Int)
    (camera_params_ : Nat → ℚ) (shape : ShapeDSI) :
    ((shape.min_depth_ ≤ 0 ∨ shape.max_depth_ ≤ shape.min_depth_) →
        setupDSI TypeDepthVector Grid3D imageWidth imageHeight camera_params_ shape = none) ∧
      (((CHECK_GT shape.min_depth_ 0).bind fun _ =>
          CHECK_GT shape.max_depth_ shape.min_depth_) = some () ↔
        0 < shape.min_depth_ ∧ shape.min_depth_ < shape.max_depth_) ∧
      (∀ r, setupDSI TypeDepthVector Grid3D imageWidth imageHeight camera_params_ shape =
          some r →
        0 < shape.min_depth_ ∧ shape.min_depth_ < shape.max_depth_ ∧
          r.dsi_shape_.min_depth_ = shape.min_depth_ ∧
          r.dsi_shape_.max_depth_ = shape.max_depth_ ∧
          TypeDepthVector shape.min_depth_ shape.max_depth_ shape.dimZ_ =
            some r.raw_depths_vec_) := by
  refine ⟨setupDSI_of_invalid_range _ _ _ _ _ _, ?_, ?_⟩
  · by_cases h0 : 0 < shape.min_depth_
    · rw [(CHECK_GT_eq_some _ _).mpr h0, Option.some_bind, CHECK_GT_eq_some]
      exact ⟨fun h => ⟨h0, h⟩, fun h => h.2⟩
    · rw [(CHECK_GT_eq_none _ _).mpr (not_lt.mp h0)]
      simp [h0]
  · intro r hr
    by_cases hbad : shape.min_depth_ ≤ 0 ∨ shape.max_depth_ ≤ shape.min_depth_
    · rw [setupDSI_of_invalid_range _ _ _ _ _ _ hbad] at hr
      cases hr
    · have h0 : 0 < shape.min_depth_ := not_le.mp fun h => hbad (Or.inl h)
      have h1 : shape.min_depth_ < shape.max_depth_ := not_le.mp fun h => hbad (Or.inr h)
      rw [setupDSI_of_valid_range _ _ _ _ _ _ h0 h1] at hr
      cases hv : TypeDepthVector shape.min_depth_ shape.max_depth_ shape.dimZ_ with
      | none => rw [hv] at hr; cases hr
      | some raw =>
        rw [hv, Option.some_bind] at hr
        cases hg : Grid3D (if shape.dimX_ > 0 then shape.dimX_ else imageWidth)
            (if shape.dimY_ > 0 then shape.dimY_ else imageHeight) shape.dimZ_ with
        | none => rw [hg] at hr; cases hr
        | some g =>
          rw [hg, Option.map_some'] at hr
          cases hr
          exact ⟨h0, h1, rfl, rfl, rfl⟩

/-- Witness of C12: a minimum depth of zero. -/
theorem setupDSI_depth_range_witness :
    setupDSI exampleDepthVector exampleGrid3D 2 2 (fun _ => 1)
      { zeroSizeShape with min_depth_ := 0 } = none :=
  (setupDSI_depth_range exampleDepthVector exampleGrid3D 2 2 (fun _ => 1)
    { zeroSizeShape with min_depth_ := 0 }).1 (Or.inl (le_refl _))

/-- C13, counterexample: a shape whose configured width and height are zero, with a valid
depth range and two depth planes, on a 2 x 2 sensor. `setupDSI` does not abort: it
returns a setup whose width and height are those of the sensor, even with a grid
constructor that would abort on a non-positive dimension. -/
theorem setupDSI_accepts_zero_size :
    zeroSizeShape.dimX_ ≤ 0 ∧ zeroSizeShape.dimY_ ≤ 0 ∧
      (setupDSI exampleDepthVector exampleGrid3D 2 2 (fun _ => 1) zeroSizeShape).map
        (fun r => (r.dsi_shape_.dimX_, r.dsi_shape_.dimY_, r.dsi_shape_.dimZ_)) =
        some (2, 2, 2) := by
  refine ⟨by decide, by decide, ?_⟩
  rw [setupDSI_of_valid_range _ _ _ _ _ _ (by norm_num [zeroSizeShape])
    (by norm_num [zeroSizeShape])]
  simp [exampleDepthVector, exampleGrid3D, zeroSizeShape]

/-- C13, as amended: with a valid depth range, a configured width or height that is zero
or negative is replaced by the image width or height of the sensor. `setupDSI` aborts
only if the depth-vector constructor or the grid constructor, called with the replaced
width and height and the configured number of depth planes, aborts; otherwise the
returned shape has the replaced width and height, and the grid is the constructed one. -/
theorem setupDSI_default_dimensions {σ : Type}
    (TypeDepthVector : ℚ → ℚ → Int → Option (List ℚ))
    (Grid3D : Int → Int → Int → Option (Nat → σ)) (imageWidth imageHeight : Int)
    (camera_params_ : Nat → ℚ) (shape : ShapeDSI)
    (h0 : 0 < shape.min_depth_) (h1 : shape.min_depth_ < shape.max_depth_) :
    (setupDSI TypeDepthVector Grid3D imageWidth imageHeight camera_params_ shape = none ↔
        TypeDepthVector shape.min_depth_ shape.max_depth_ shape.dimZ_ = none ∨
          Grid3D (if shape.dimX_ > 0 then shape.dimX_ else imageWidth)
            (if shape.dimY_ > 0 then shape.dimY_ else imageHeight) shape.dimZ_ = none) ∧
      (∀ r, setupDSI TypeDepthVector Grid3D imageWidth imageHeight camera_params_ shape =
          some r →
        r.dsi_shape_.dimX_ = (if shape.dimX_ > 0 then shape.dimX_ else imageWidth) ∧
          r.dsi_shape_.dimY_ = (if shape.dimY_ > 0 then shape.dimY_ else imageHeight) ∧
          r.dsi_shape_.dimZ_ = shape.dimZ_ ∧
          Grid3D (if shape.dimX_ > 0 then shape.dimX_ else imageWidth)
            (if shape.dimY_ > 0 then shape.dimY_ else imageHeight) shape.dimZ_ =
            some r.dsi_) := by
  rw [setupDSI_of_valid_range _ _ _ _ _ _ h0 h1]
  cases hv : TypeDepthVector shape.min_depth_ shape.max_depth_ shape.dimZ_ with
  | none => simp
  | some raw =>
    cases hg : Grid3D (if shape.dimX_ > 0 then shape.dimX_ else imageWidth)
        (if shape.dimY_ > 0 then shape.dimY_ else imageHeight) shape.dimZ_ with
    | none => simp
    | some g =>
      refine ⟨by simp, ?_⟩
      intro r hr
      rw [Option.some_bind, Option.map_some'] at hr
      cases hr
      exact ⟨rfl, rfl, rfl, rfl⟩

/-- Witness of C13: the zero-size shape on a 2 x 2 sensor. -/
theorem setupDSI_default_dimensions_witness :
    setupDSI exampleDepthVector exampleGrid3D 2 2 (fun _ => 1) zeroSizeShape = none ↔
      exampleDepthVector zeroSizeShape.min_depth_ zeroSizeShape.max_depth_
          zeroSizeShape.dimZ_ = none ∨
        exampleGrid3D (if zeroSizeShape.dimX_ > 0 then zeroSizeShape.dimX_ else 2)
          (if zeroSizeShape.dimY_ > 0 then zeroSizeShape.dimY_ else 2) zeroSizeShape.dimZ_ =
          none :=
  (setupDSI_default_dimensions exampleDepthVector exampleGrid3D 2 2 (fun _ => 1) zeroSizeShape
    (by norm_num [zeroSizeShape]) (by norm_num [zeroSizeShape])).1

/-! ## Shared lemmas on the runs of the packet loop -/

theorem packetStep_hit {σ : Type} (m : MapperEMVS σ) (events : List Event)
    (trajectory : TrajectoryType) (T_rv_w : Option Matrix4d) (s : LoopState)
    (T_w_ev : Matrix4d)
    (hhit : trajectory.getPoseAt
      (events.getD (s.current_event_ + m.packet_size_ / 2) default).ts = some T_w_ev) :
    packetStep m events trajectory T_rv_w s =
      { current_event_ := s.current_event_ + m.packet_size_
        event_locations_z0 := s.event_locations_z0 ++
          packetLocations m events (packetHomography m T_rv_w T_w_ev) s.current_event_
        camera_centers := s.camera_centers ++ [packetCenter T_rv_w T_w_ev] } := by
  simp only [packetStep, hhit]
  rfl

theorem packetLoop_exit {σ : Type} (m : MapperEMVS σ) (events : List Event)
    (trajectory : TrajectoryType) (T_rv_w : Option Matrix4d) (fuel : Nat) (s s2 : LoopState)
    (h : packetLoop m events trajectory T_rv_w fuel s = some s2) :
    ¬ s2.current_event_ + m.packet_size_ < events.length := by
  induction fuel generalizing s with
  | zero =>
    by_cases hc : s.current_event_ + m.packet_size_ < events.length
    · simp [packetLoop, hc] at h
    · rw [packetLoop_done _ _ _ _ _ _ hc] at h
      cases h
      exact hc
  | succ k ih =>
    by_cases hc : s.current_event_ + m.packet_size_ < events.length
    · rw [packetLoop_step _ _ _ _ _ _ hc] at h
      exact ih _ h
    · rw [packetLoop_done _ _ _ _ _ _ hc] at h
      cases h
      exact hc

theorem packetLoop_more_fuel {σ : Type} (m : MapperEMVS σ) (events : List Event)
    (trajectory : TrajectoryType) (T_rv_w : Option Matrix4d) (fuel extra : Nat)
    (s s2 : LoopState) (h : packetLoop m events trajectory T_rv_w fuel s = some s2) :
    packetLoop m events trajectory T_rv_w (fuel + extra) s = some s2 := by
  induction fuel generalizing s with
  | zero =>
    by_cases hc : s.current_event_ + m.packet_size_ < events.length
    · simp [packetLoop, hc] at h
    · rw [packetLoop_done _ _ _ _ _ _ hc] at h
      rw [packetLoop_done _ _ _ _ _ _ hc]
      exact h
  | succ k ih =>
    by_cases hc : s.current_event_ + m.packet_size_ < events.length
    · rw [packetLoop_step _ _ _ _ _ _ hc] at h
      rw [show k + 1 + extra = (k + extra) + 1 by omega, packetLoop_step _ _ _ _ _ _ hc]
      exact ih _ h
    · rw [packetLoop_done _ _ _ _ _ _ hc] at h
      rw [packetLoop_done _ _ _ _ _ _ hc]
      exact h

theorem packetLoop_all_miss {σ : Type} (m : MapperEMVS σ) (events : List Event)
    (trajectory : TrajectoryType) (T_rv_w : Option Matrix4d)
    (hmiss : ∀ e ∈ events, trajectory.getPoseAt e.ts = none) (fuel : Nat) (s : LoopState)
    (hfuel : events.length ≤ s.current_event_ + fuel) :
    ∃ c, packetLoop m events trajectory T_rv_w fuel s =
      some { s with current_event_ := c } := by
  induction fuel generalizing s with
  | zero => exact ⟨s.current_event_, packetLoop_done _ _ _ _ _ _ (by omega)⟩
  | succ k ih =>
    by_cases hc : s.current_event_ + m.packet_size_ < events.length
    · have hlt : s.current_event_ + m.packet_size_ / 2 < events.length := by omega
      have hmem : events.getD (s.current_event_ + m.packet_size_ / 2) default ∈ events := by
        rw [List.getD_eq_getElem _ _ hlt]
        exact List.getElem_mem _
      rw [packetLoop_step _ _ _ _ _ _ hc, packetStep_miss _ _ _ _ _ (hmiss _ hmem)]
      obtain ⟨c, hc2⟩ := ih { s with current_event_ := s.current_event_ + 1 }
        (by simp only []; omega)
      exact ⟨c, hc2⟩
    · exact ⟨s.current_event_, packetLoop_done _ _ _ _ _ _ hc⟩

/-! ## Best-effort partial batch -/

/-- C14: for a batch of at least `packet_size_` events and a trajectory that has no pose
at the timestamp of any event of the batch, `updateDSI` with fuel of at least `events.size()` returns `true`, with
the mapper (hence the voxel grid) unchanged and no camera center or warped location
recorded. For every trajectory, a call that passes the size check and returns has status
`true`: events that follow the last resolved packet are left out without an error. -/
theorem updateDSI_best_effort {σ : Type}
    (accumulateGridValueAt : Option ℚ → Option ℚ → σ → σ) (fuel : Nat) (m : MapperEMVS σ)
    (st : Statics) (events : List Event) (trajectory : TrajectoryType)
    (hn : m.packet_size_ ≤ events.length) (hfuel : events.length ≤ fuel) :
    ((∀ e ∈ events, trajectory.getPoseAt e.ts = none) →
        updateDSI accumulateGridValueAt fuel m st events trajectory =
          some (true, m, { event_locations_z0 := [], camera_centers := [] })) ∧
      (∀ r, updateDSI accumulateGridValueAt fuel m st events trajectory = some r →
        r.1 = true) := by
  have hsize : ¬ events.length < m.packet_size_ := by omega
  constructor
  · intro hmiss
    obtain ⟨c, hc⟩ := packetLoop_all_miss m events trajectory (inverse m.T_w_rv_) hmiss fuel
      { current_event_ := 0, event_locations_z0 := [], camera_centers := [] }
      (by simp only []; omega)
    unfold updateDSI
    rw [if_neg hsize, hc]
    simp [fillVoxelGrid_no_centers]
  · intro r hr
    unfold updateDSI at hr
    rw [if_neg hsize] at hr
    cases hl : packetLoop m events trajectory (inverse m.T_w_rv_) fuel
        { current_event_ := 0, event_locations_z0 := [], camera_centers := [] } with
    | none => rw [hl] at hr; cases hr
    | some s2 =>
      rw [hl] at hr
      cases hr
      rfl

/-- Witness of C14: three events, packet size two, a trajectory without poses. -/
theorem updateDSI_best_effort_witness :
    updateDSI recordVote 3 (exampleMapper 2) emptyStatics
        [⟨0, 0, 0⟩, ⟨1, 0, 1⟩, ⟨0, 1, 2⟩] emptyTrajectory =
      some (true, exampleMapper 2, { event_locations_z0 := [], camera_centers := [] }) :=
  (updateDSI_best_effort recordVote 3 (exampleMapper 2) emptyStatics
    [⟨0, 0, 0⟩, ⟨1, 0, 1⟩, ⟨0, 1, 2⟩] emptyTrajectory (by decide) (by decide)).1
    (fun _ _ => rfl)

/-! ## Termination -/

/-- C18: for a packet size of at least one, every iteration of the packet loop moves the
cursor strictly forward, by one on a pose miss and by `packet_size_` on a resolved
packet. Hence from every state the loop ends within `events.size() - cursor` iterations,
in a state where `cursor + packet_size_ < events.size()` is false, and more fuel does not
change the result. -/
theorem packetLoop_termination {σ : Type} (m : MapperEMVS σ) (events : List Event)
    (trajectory : TrajectoryType) (T_rv_w : Option Matrix4d) (fuel : Nat) (s : LoopState)
    (hps : 1 ≤ m.packet_size_) (hfuel : events.length ≤ s.current_event_ + fuel) :
    (trajectory.getPoseAt
          (events.getD (s.current_event_ + m.packet_size_ / 2) default).ts = none →
        (packetStep m events trajectory T_rv_w s).current_event_ = s.current_event_ + 1) ∧
      (trajectory.getPoseAt
          (events.getD (s.current_event_ + m.packet_size_ / 2) default).ts ≠ none →
        (packetStep m events trajectory T_rv_w s).current_event_ =
          s.current_event_ + m.packet_size_) ∧
      s.current_event_ < (packetStep m events trajectory T_rv_w s).current_event_ ∧
      (∃ s2, packetLoop m events trajectory T_rv_w fuel s = some s2 ∧
        ¬ s2.current_event_ + m.packet_size_ < events.length ∧
        ∀ extra, packetLoop m events trajectory T_rv_w (fuel + extra) s = some s2) ∧
      (∀ (accumulateGridValueAt : Option ℚ → Option ℚ → σ → σ) (st : Statics) (fuel2 : Nat),
        events.length ≤ fuel2 →
        ∃ r, updateDSI accumulateGridValueAt fuel2 m st events trajectory = some r) := by
  refine ⟨?_, ?_, ?_, ?_, ?_⟩
  · intro hmiss
    rw [packetStep_miss _ _ _ _ _ hmiss]
  · intro hhit
    cases hp : trajectory.getPoseAt
        (events.getD (s.current_event_ + m.packet_size_ / 2) default).ts with
    | none => exact absurd hp hhit
    | some T => exact packetStep_hit_cursor _ _ _ _ _ T hp
  · have := packetStep_cursor m events trajectory T_rv_w s hps
    omega
  · obtain ⟨s2, hs2⟩ := packetLoop_terminates m events trajectory T_rv_w hps fuel s hfuel
    exact ⟨s2, hs2, packetLoop_exit _ _ _ _ _ _ _ hs2,
      fun extra => packetLoop_more_fuel _ _ _ _ _ _ _ _ hs2⟩
  · intro vote st fuel2 hfuel2
    unfold updateDSI
    by_cases hsize : events.length < m.packet_size_
    · exact ⟨_, if_pos hsize⟩
    · obtain ⟨s2, hs2⟩ := packetLoop_terminates m events trajectory (inverse m.T_w_rv_) hps
        fuel2 { current_event_ := 0, event_locations_z0 := [], camera_centers := [] }
        (by simp only []; omega)
      rw [if_neg hsize, hs2]
      exact ⟨_, rfl⟩

/-- Witness of C18: three events, packet size one, poses everywhere, fuel three. -/
theorem packetLoop_termination_witness :
    ∃ s2, packetLoop (exampleMapper 1) [⟨0, 0, 0⟩, ⟨1, 0, 1⟩, ⟨0, 1, 2⟩] identityTrajectory
        (some 1) 3 { current_event_ := 0, event_locations_z0 := [], camera_centers := [] } =
          some s2 ∧
      ¬ s2.current_event_ + (exampleMapper 1).packet_size_ <
          [(⟨0, 0, 0⟩ : Event), ⟨1, 0, 1⟩, ⟨0, 1, 2⟩].length ∧
      ∀ extra, packetLoop (exampleMapper 1) [⟨0, 0, 0⟩, ⟨1, 0, 1⟩, ⟨0, 1, 2⟩]
        identityTrajectory (some 1) (3 + extra)
        { current_event_ := 0, event_locations_z0 := [], camera_centers := [] } = some s2 :=
  (packetLoop_termination (exampleMapper 1) [⟨0, 0, 0⟩, ⟨1, 0, 1⟩, ⟨0, 1, 2⟩]
    identityTrajectory (some 1) 3
    { current_event_ := 0, event_locations_z0 := [], camera_centers := [] }
    (by decide) (by decide)).2.2.2.1

/-! ## Shared lemmas on the parallel sequences -/

theorem packetLocations_length {σ : Type} (m : MapperEMVS σ) (events : List Event)
    (H : Option Matrix3f) (cursor : Nat) :
    (packetLocations m events H cursor).length = m.packet_size_ := by
  simp [packetLocations]

theorem length_flatMap_block {α β : Type} (f : α → List β) (n : Nat) (l : List α)
    (hlen : ∀ a, (f a).length = n) : (l.flatMap f).length = n * l.length := by
  induction l with
  | nil => simp
  | cons a l ih =>
    rw [List.flatMap_cons, List.length_append, ih, hlen, List.length_cons]
    ring

theorem getElem?_flatMap_block {α β : Type} (f : α → List β) (n : Nat) (l : List α)
    (hlen : ∀ a, (f a).length = n) (k j : Nat) (a : α) (hk : l[k]? = some a) (hj : j < n) :
    (l.flatMap f)[k * n + j]? = (f a)[j]? := by
  induction l generalizing k with
  | nil => simp at hk
  | cons b l ih =>
    rw [List.flatMap_cons]
    cases k with
    | zero =>
      simp only [List.getElem?_cons_zero, Option.some.injEq] at hk
      subst hk
      rw [Nat.zero_mul, Nat.zero_add, List.getElem?_append_left (by rw [hlen]; exact hj)]
    | succ k =>
      rw [List.getElem?_cons_succ] at hk
      rw [List.getElem?_append_right (by rw [hlen]; nlinarith), hlen,
        show (k + 1) * n + j - n = k * n + j by
          rw [Nat.succ_mul]; omega]
      exact ih k hk

theorem parallelSequences_length {σ : Type} (m : MapperEMVS σ) (events : List Event)
    (trajectory : TrajectoryType) (T_rv_w : Option Matrix4d)
    (locs : List (Option Vector4f)) (centers : List (Option Vector3f))
    (h : ParallelSequences m events trajectory T_rv_w locs centers) :
    locs.length = m.packet_size_ * centers.length := by
  obtain ⟨packets, _, hc, hl⟩ := h
  rw [hl, hc, List.length_map,
    length_flatMap_block _ m.packet_size_ packets
      (fun p => packetLocations_length m events _ p.1)]

theorem packetLoop_parallel {σ : Type} (m : MapperEMVS σ) (events : List Event)
    (trajectory : TrajectoryType) (T_rv_w : Option Matrix4d) (fuel : Nat) (s s2 : LoopState)
    (hinv : ParallelSequences m events trajectory T_rv_w s.event_locations_z0
      s.camera_centers)
    (h : packetLoop m events trajectory T_rv_w fuel s = some s2) :
    ParallelSequences m events trajectory T_rv_w s2.event_locations_z0 s2.camera_centers := by
  induction fuel generalizing s with
  | zero =>
    by_cases hc : s.current_event_ + m.packet_size_ < events.length
    · simp [packetLoop, hc] at h
    · rw [packetLoop_done _ _ _ _ _ _ hc] at h
      cases h
      exact hinv
  | succ k ih =>
    by_cases hc : s.current_event_ + m.packet_size_ < events.length
    · rw [packetLoop_step _ _ _ _ _ _ hc] at h
      refine ih _ ?_ h
      cases hp : trajectory.getPoseAt
          (events.getD (s.current_event_ + m.packet_size_ / 2) default).ts with
      | none =>
        rw [packetStep_miss _ _ _ _ _ hp]
        exact hinv
      | some T =>
        rw [packetStep_hit _ _ _ _ _ T hp]
        obtain ⟨packets, hin, hcen, hloc⟩ := hinv
        refine ⟨packets ++ [(s.current_event_, T)], ?_, ?_, ?_⟩
        · intro p hpm
          rcases List.mem_append.mp hpm with h1 | h1
          · exact hin p h1
          · rw [List.mem_singleton] at h1
            subst h1
            exact ⟨hc, hp⟩
        · simp [hcen]
        · simp [hloc, List.flatMap_append]
    · rw [packetLoop_done _ _ _ _ _ _ hc] at h
      cases h
      exact hinv

theorem updateDSI_stage_B {σ : Type}
    (vote : Option ℚ → Option ℚ → σ → σ) (fuel : Nat) (m : MapperEMVS σ)
    (st : Statics) (events : List Event) (trajectory : TrajectoryType)
    (r : Bool × MapperEMVS σ × Statics)
    (hr : updateDSI vote fuel m st events trajectory = some r) (hB : r.1 = true) :
    ¬ events.length < m.packet_size_ ∧
      ∃ s2, packetLoop m events trajectory (inverse m.T_w_rv_) fuel
          { current_event_ := 0, event_locations_z0 := [], camera_centers := [] } = some s2 ∧
        r = (true, fillVoxelGrid vote m s2.event_locations_z0 s2.camera_centers,
          { event_locations_z0 := s2.event_locations_z0,
            camera_centers := s2.camera_centers }) := by
  unfold updateDSI at hr
  by_cases hsize : events.length < m.packet_size_
  · rw [if_pos hsize] at hr
    cases hr
    cases hB
  · rw [if_neg hsize] at hr
    refine ⟨hsize, ?_⟩
    cases hl : packetLoop m events trajectory (inverse m.T_w_rv_) fuel
        { current_event_ := 0, event_locations_z0 := [], camera_centers := [] } with
    | none => rw [hl] at hr; cases hr
    | some s2 =>
      rw [hl] at hr
      cases hr
      exact ⟨s2, rfl, rfl⟩

theorem updateDSI_parallel {σ : Type}
    (vote : Option ℚ → Option ℚ → σ → σ) (fuel : Nat) (m : MapperEMVS σ)
    (st : Statics) (events : List Event) (trajectory : TrajectoryType)
    (r : Bool × MapperEMVS σ × Statics)
    (hr : updateDSI vote fuel m st events trajectory = some r) (hB : r.1 = true) :
    ParallelSequences m events trajectory (inverse m.T_w_rv_) r.2.2.event_locations_z0
      r.2.2.camera_centers := by
  obtain ⟨_, s2, hs2, hrs⟩ := updateDSI_stage_B vote fuel m st events trajectory r hr hB
  rw [hrs]
  exact packetLoop_parallel m events trajectory (inverse m.T_w_rv_) fuel _ s2
    ⟨[], by simp, by simp, by simp⟩ hs2

theorem foldl_processPacket_fst {σ : Type} (vote : Option ℚ → Option ℚ → σ → σ)
    (m : MapperEMVS σ) (locs : List (Option Vector4f)) (depth_plane : Nat)
    (l : List (Option Vector3f)) (s : Nat × σ) :
    (l.foldl (processPacket vote m locs depth_plane) s).1 =
      s.1 + l.length * (m.packet_size_ / N * N) := by
  induction l generalizing s with
  | nil => simp
  | cons C l ih =>
    rw [List.foldl_cons, ih, processPacket_fst, List.length_cons]
    ring

/-! ## Parallel sequences -/

/-- C16: on every call of `updateDSI` that reaches Stage B (status `true`), whatever the
static buffers held before, the mapper returned is `fillVoxelGrid` applied to the two
buffers as they are after the call, and these buffers depend on the events of this call
only: the call returns the same for any other previous content. The warped locations
number `packet_size_` times the camera centers, and there is a list of resolved packets,
one per camera center, such that the packet `k` starts at a cursor `c` with
`c + packet_size_ < events.size()`, has its pose at the midpoint event, gives camera
center `k`, and gives the entries `k * packet_size_ + j`, `j < packet_size_`, as the warps
of the events `c + j`. -/
theorem updateDSI_parallel_sequences {σ : Type}
    (accumulateGridValueAt : Option ℚ → Option ℚ → σ → σ) (fuel : Nat) (m : MapperEMVS σ)
    (st : Statics) (events : List Event) (trajectory : TrajectoryType)
    (r : Bool × MapperEMVS σ × Statics)
    (hr : updateDSI accumulateGridValueAt fuel m st events trajectory = some r)
    (hB : r.1 = true) :
    r.2.1 = fillVoxelGrid accumulateGridValueAt m r.2.2.event_locations_z0
        r.2.2.camera_centers ∧
      (∀ st2, updateDSI accumulateGridValueAt fuel m st2 events trajectory = some r) ∧
      r.2.2.event_locations_z0.length = m.packet_size_ * r.2.2.camera_centers.length ∧
      ParallelSequences m events trajectory (inverse m.T_w_rv_) r.2.2.event_locations_z0
        r.2.2.camera_centers ∧
      ∃ packets : List (Nat × Matrix4d),
        packets.length = r.2.2.camera_centers.length ∧
        ∀ k c T, packets[k]? = some (c, T) →
          c + m.packet_size_ < events.length ∧
          trajectory.getPoseAt (events.getD (c + m.packet_size_ / 2) default).ts = some T ∧
          r.2.2.camera_centers[k]? = some (packetCenter (inverse m.T_w_rv_) T) ∧
          ∀ j, j < m.packet_size_ →
            r.2.2.event_locations_z0[k * m.packet_size_ + j]? =
              some (warpEvent m (packetHomography m (inverse m.T_w_rv_) T)
                (events.getD (c + j) default)) := by
  have hpar := updateDSI_parallel accumulateGridValueAt fuel m st events trajectory r hr hB
  obtain ⟨hsize, s2, hs2, hrs⟩ :=
    updateDSI_stage_B accumulateGridValueAt fuel m st events trajectory r hr hB
  refine ⟨by rw [hrs], ?_, parallelSequences_length _ _ _ _ _ _ hpar, hpar, ?_⟩
  · intro st2
    unfold updateDSI
    rw [if_neg hsize, hs2, hrs]
  · obtain ⟨packets, hin, hcen, hloc⟩ := hpar
    refine ⟨packets, by rw [hcen, List.length_map], ?_⟩
    intro k c T hk
    have hmem : (c, T) ∈ packets := List.getElem?_mem hk
    refine ⟨(hin _ hmem).1, (hin _ hmem).2, ?_, ?_⟩
    · rw [hcen, List.getElem?_map, hk]
      rfl
    · intro j hj
      rw [hloc, getElem?_flatMap_block _ m.packet_size_ packets
        (fun p => packetLocations_length m events _ p.1) k j (c, T) hk hj]
      simp [packetLocations, hj]

/-- Witness of C16: two events, packet size one, poses everywhere: one packet is
recorded, at cursor 0. -/
theorem updateDSI_parallel_sequences_witness :
    ∃ r, updateDSI recordVote 2 (exampleMapper 1) emptyStatics [⟨0, 0, 0⟩, ⟨1, 0, 1⟩]
        identityTrajectory = some r ∧
      r.2.2.camera_centers = [packetCenter (inverse (exampleMapper 1).T_w_rv_) 1] ∧
      r.2.2.event_locations_z0.length =
        (exampleMapper 1).packet_size_ * r.2.2.camera_centers.length := by
  have hs2 : packetLoop (exampleMapper 1) [⟨0, 0, 0⟩, ⟨1, 0, 1⟩] identityTrajectory
      (inverse (exampleMapper 1).T_w_rv_) 2
      { current_event_ := 0, event_locations_z0 := [], camera_centers := [] } =
      some
        { current_event_ := 0 + (exampleMapper 1).packet_size_
          event_locations_z0 := [] ++
            packetLocations (exampleMapper 1) [⟨0, 0, 0⟩, ⟨1, 0, 1⟩]
              (packetHomography (exampleMapper 1) (inverse (exampleMapper 1).T_w_rv_) 1) 0
          camera_centers := [] ++ [packetCenter (inverse (exampleMapper 1).T_w_rv_) 1] } := by
    rw [packetLoop_step _ _ _ _ _ _ (by decide), packetStep_hit _ _ _ _ _ 1 rfl,
      packetLoop_done _ _ _ _ _ _ (by decide)]
  have hr : updateDSI recordVote 2 (exampleMapper 1) emptyStatics [⟨0, 0, 0⟩, ⟨1, 0, 1⟩]
      identityTrajectory =
      some (true,
        fillVoxelGrid recordVote (exampleMapper 1)
          ([] ++ packetLocations (exampleMapper 1) [⟨0, 0, 0⟩, ⟨1, 0, 1⟩]
            (packetHomography (exampleMapper 1) (inverse (exampleMapper 1).T_w_rv_) 1) 0)
          ([] ++ [packetCenter (inverse (exampleMapper 1).T_w_rv_) 1]),
        { event_locations_z0 := [] ++
            packetLocations (exampleMapper 1) [⟨0, 0, 0⟩, ⟨1, 0, 1⟩]
              (packetHomography (exampleMapper 1) (inverse (exampleMapper 1).T_w_rv_) 1) 0
          camera_centers := [] ++ [packetCenter (inverse (exampleMapper 1).T_w_rv_) 1] }) := by
    unfold updateDSI
    rw [if_neg (by decide), hs2]
  exact ⟨_, hr, rfl,
    (updateDSI_parallel_sequences recordVote 2 (exampleMapper 1) emptyStatics
      [⟨0, 0, 0⟩, ⟨1, 0, 1⟩] identityTrajectory _ hr rfl).2.2.1⟩

/-! ## Index safety -/

/-- C17: let the packet size be at least one, the pixel of every event lie inside the
sensor resolution, and the depth vector be non-empty. In every state in which the loop
body of `updateDSI` runs (`cursor + packet_size_ < events.size()`), the midpoint index
`cursor + packet_size_ / 2` and the indices `cursor + i`, `i < packet_size_`, of the events
read are below `events.size()`, and the column `e.y * width_ + e.x` looked up for each of
these events is below the number of columns of the rectification table. The depth vector
has an element 0. In every call that reaches Stage B, for every depth plane, packet `k`,
batch `b < packet_size_ / N` and `i < N`, the offset at which `fillVoxelGrid` reads a
warped location (the pointer after the first `k` packets, plus `b * N + i`) is below the
length of the warped-location sequence. -/
theorem updateDSI_index_safety {σ : Type} (m : MapperEMVS σ) (events : List Event)
    (trajectory : TrajectoryType)
    (hps : 1 ≤ m.packet_size_)
    (hpix : ∀ e ∈ events, e.x < m.width_ ∧ e.y < m.height_)
    (hdepth : m.raw_depths_vec_ ≠ []) :
    (∀ s : LoopState, s.current_event_ + m.packet_size_ < events.length →
        s.current_event_ + m.packet_size_ / 2 < events.length ∧
        ∀ i, i < m.packet_size_ →
          s.current_event_ + i < events.length ∧
          (events.getD (s.current_event_ + i) default).y * m.width_ +
            (events.getD (s.current_event_ + i) default).x < rectifiedPointsCols m) ∧
      (∃ z0, m.raw_depths_vec_[0]? = some z0) ∧
      (∀ (accumulateGridValueAt : Option ℚ → Option ℚ → σ → σ) (fuel : Nat) (st : Statics)
        (r : Bool × MapperEMVS σ × Statics),
        updateDSI accumulateGridValueAt fuel m st events trajectory = some r → r.1 = true →
        ∀ (depth_plane : Nat) (pgrid : σ) (k b i : Nat),
          k < r.2.2.camera_centers.length → b < m.packet_size_ / N → i < N →
          ((r.2.2.camera_centers.take k).foldl
              (processPacket accumulateGridValueAt m r.2.2.event_locations_z0 depth_plane)
              (0, pgrid)).1 + b * N + i < r.2.2.event_locations_z0.length) := by
  refine ⟨?_, ?_, ?_⟩
  · intro s hc
    refine ⟨by omega, ?_⟩
    intro i hi
    have hlt : s.current_event_ + i < events.length := by omega
    refine ⟨hlt, ?_⟩
    have hmem : events.getD (s.current_event_ + i) default ∈ events := by
      rw [List.getD_eq_getElem _ _ hlt]
      exact List.getElem_mem _
    obtain ⟨hx, hy⟩ := hpix _ hmem
    unfold rectifiedPointsCols
    calc (events.getD (s.current_event_ + i) default).y * m.width_ +
          (events.getD (s.current_event_ + i) default).x
        < (events.getD (s.current_event_ + i) default).y * m.width_ + m.width_ := by omega
      _ = ((events.getD (s.current_event_ + i) default).y + 1) * m.width_ := by ring
      _ ≤ m.height_ * m.width_ := Nat.mul_le_mul_right _ hy
  · cases hd : m.raw_depths_vec_ with
    | nil => exact absurd hd hdepth
    | cons z zs => exact ⟨z, by simp⟩
  · intro vote fuel st r hr hB depth_plane pgrid k b i hk hb hi
    have hlen := parallelSequences_length _ _ _ _ _ _
      (updateDSI_parallel vote fuel m st events trajectory r hr hB)
    rw [foldl_processPacket_fst, List.length_take, Nat.min_eq_left (le_of_lt hk), hlen]
    have h1 : b * N + i < m.packet_size_ / N * N := by
      calc b * N + i < b * N + N := by omega
        _ = (b + 1) * N := by ring
        _ ≤ m.packet_size_ / N * N := Nat.mul_le_mul_right _ hb
    have h2 : m.packet_size_ / N * N ≤ m.packet_size_ := Nat.div_mul_le_self _ _
    have h3 : (k + 1) * (m.packet_size_ / N * N) ≤
        r.2.2.camera_centers.length * m.packet_size_ :=
      Nat.mul_le_mul hk h2
    calc 0 + k * (m.packet_size_ / N * N) + b * N + i
        < k * (m.packet_size_ / N * N) + m.packet_size_ / N * N := by omega
      _ = (k + 1) * (m.packet_size_ / N * N) := by ring
      _ ≤ r.2.2.camera_centers.length * m.packet_size_ := h3
      _ = m.packet_size_ * r.2.2.camera_centers.length := Nat.mul_comm _ _

/-- Witness of C17: the example mapper with packet size one and two events inside its
2 x 2 sensor. -/
theorem updateDSI_index_safety_witness :
    ∃ z0, (exampleMapper 1).raw_depths_vec_[0]? = some z0 :=
  (updateDSI_index_safety (exampleMapper 1) [⟨0, 0, 0⟩, ⟨1, 0, 1⟩] identityTrajectory
    (by decide) (by decide) (by simp [exampleMapper])).2.1

/-! ## Shared lemmas on rigid transforms -/

theorem fin_four_three_not_lt : ¬ ((3 : Fin 4) : ℕ) < 3 := by decide

theorem topLeftCorner_rigidMatrix (R : Matrix3f) (t : Vector3f) :
    topLeftCorner (rigidMatrix R t) = R := by
  ext i j
  fin_cases i <;> fin_cases j <;> simp [topLeftCorner, rigidMatrix, fin_four_three_not_lt]

theorem topRightCorner_rigidMatrix (R : Matrix3f) (t : Vector3f) :
    topRightCorner (rigidMatrix R t) = t := by
  funext i
  fin_cases i <;> simp [topRightCorner, rigidMatrix, fin_four_three_not_lt]

theorem rigidMatrix_of_last_row (T : Matrix4d)
    (h : T 3 0 = 0 ∧ T 3 1 = 0 ∧ T 3 2 = 0 ∧ T 3 3 = 1) :
    T = rigidMatrix (topLeftCorner T) (topRightCorner T) := by
  obtain ⟨h0, h1, h2, h3⟩ := h
  ext i j
  fin_cases i <;> fin_cases j <;>
    simp [topLeftCorner, topRightCorner, rigidMatrix, h0, h1, h2, h3, fin_four_three_not_lt]

theorem rigidMatrix_mul (R1 R2 : Matrix3f) (t1 t2 : Vector3f) :
    rigidMatrix R1 t1 * rigidMatrix R2 t2 =
      rigidMatrix (R1 * R2) (R1.mulVec t2 + t1) := by
  ext i j
  fin_cases i <;> fin_cases j <;>
    simp [rigidMatrix, Matrix.mul_apply, Matrix.mulVec, Matrix.dotProduct, Fin.sum_univ_four,
      Fin.sum_univ_three, fin_four_three_not_lt]

theorem rigidMatrix_one : rigidMatrix 1 0 = 1 := by
  ext i j
  fin_cases i <;> fin_cases j <;> simp [rigidMatrix, fin_four_three_not_lt]

theorem isRigid_rigidMatrix (R : Matrix3f) (t : Vector3f) (h : R * R.transpose = 1) :
    IsRigid (rigidMatrix R t) := by
  refine ⟨by rw [topLeftCorner_rigidMatrix]; exact h, ?_, ?_, ?_, ?_⟩ <;>
    simp [rigidMatrix, fin_four_three_not_lt]

theorem rigidMatrix_mul_inverse (R : Matrix3f) (t : Vector3f) (h : R * R.transpose = 1) :
    rigidMatrix R t * rigidMatrix R.transpose (-(R.transpose.mulVec t)) = 1 := by
  have ht : R.mulVec (-(R.transpose.mulVec t)) + t = 0 := by
    rw [Matrix.mulVec_neg, Matrix.mulVec_mulVec, h, Matrix.one_mulVec]
    simp
  rw [rigidMatrix_mul, h, ht, rigidMatrix_one]

theorem inverse_rigidMatrix (R : Matrix3f) (t : Vector3f) (h : R * R.transpose = 1) :
    inverse (rigidMatrix R t) = some (rigidMatrix R.transpose (-(R.transpose.mulVec t))) := by
  have hmul := rigidMatrix_mul_inverse R t h
  have hdet : (rigidMatrix R t).det ≠ 0 :=
    isUnit_iff_ne_zero.mp (Matrix.isUnit_det_of_right_inverse hmul)
  rw [inverse_of_det_ne_zero _ hdet, Matrix.inv_eq_right_inv hmul]

theorem cameraCenter_of_inverse (R : Matrix3f) (t : Vector3f) (h : R * R.transpose = 1) :
    cameraCenter R.transpose (-(R.transpose.mulVec t)) = t := by
  unfold cameraCenter
  rw [Matrix.transpose_transpose, Matrix.neg_mulVec, Matrix.mulVec_neg, neg_neg,
    Matrix.mulVec_mulVec, h, Matrix.one_mulVec]

/-! ## Camera center -/

/-- C15: for rigid poses `T_w_rv` and `T_w_ev`, the inverse `T_rv_w` of the reference pose
and the transform `T_ev_rv = (T_rv_w * T_w_ev)^-1` are defined, and so is the center that
`updateDSI` records for a packet with pose `T_w_ev`. With `(R, t)` the rotation block and
translation column of `T_ev_rv`, the center is `-R^T * t`, it satisfies `R * center + t = 0`,
and it is the translation column of `T_rv_w * T_w_ev`. It is the camera center that the
loop body pushes when the mapper has reference pose `T_w_rv` and the pose lookup yields
`T_w_ev`. -/
theorem updateDSI_camera_center (T_w_rv T_w_ev : Matrix4d)
    (hrv : IsRigid T_w_rv) (hev : IsRigid T_w_ev) :
    ∃ (T_rv_w Tinv : Matrix4d) (c : Vector3f),
      inverse T_w_rv = some T_rv_w ∧ T_rv_w * T_w_rv = 1 ∧
      T_ev_rv (inverse T_w_rv) T_w_ev = some Tinv ∧ Tinv * (T_rv_w * T_w_ev) = 1 ∧
      packetCenter (inverse T_w_rv) T_w_ev = some c ∧
      c = cameraCenter (topLeftCorner Tinv) (topRightCorner Tinv) ∧
      (topLeftCorner Tinv).mulVec c + topRightCorner Tinv = 0 ∧
      c = topRightCorner (T_rv_w * T_w_ev) ∧
      ∀ (σ : Type) (m : MapperEMVS σ) (events : List Event) (trajectory : TrajectoryType)
        (s : LoopState), m.T_w_rv_ = T_w_rv →
        trajectory.getPoseAt
          (events.getD (s.current_event_ + m.packet_size_ / 2) default).ts = some T_w_ev →
        (packetStep m events trajectory (inverse m.T_w_rv_) s).camera_centers =
          s.camera_centers ++ [some c] := by
  obtain ⟨h1, hrow1⟩ := hrv
  obtain ⟨h2, hrow2⟩ := hev
  have e1 := rigidMatrix_of_last_row T_w_rv hrow1
  have e2 := rigidMatrix_of_last_row T_w_ev hrow2
  generalize topLeftCorner T_w_rv = R1 at h1 e1
  generalize topRightCorner T_w_rv = t1 at e1
  generalize topLeftCorner T_w_ev = R2 at h2 e2
  generalize topRightCorner T_w_ev = t2 at e2
  subst e1 e2
  have h1c : R1.transpose * R1 = 1 := Matrix.mul_eq_one_comm.mp h1
  have hinv1 := inverse_rigidMatrix R1 t1 h1
  have hA : rigidMatrix R1.transpose (-(R1.transpose.mulVec t1)) * rigidMatrix R2 t2 =
      rigidMatrix (R1.transpose * R2)
        (R1.transpose.mulVec t2 + -(R1.transpose.mulVec t1)) := rigidMatrix_mul _ _ _ _
  have hRa : (R1.transpose * R2) * (R1.transpose * R2).transpose = 1 := by
    rw [Matrix.transpose_mul, Matrix.transpose_transpose, Matrix.mul_assoc,
      ← Matrix.mul_assoc R2, h2, Matrix.one_mul, h1c]
  have hinvA := inverse_rigidMatrix (R1.transpose * R2)
    (R1.transpose.mulVec t2 + -(R1.transpose.mulVec t1)) hRa
  have hTev : T_ev_rv (inverse (rigidMatrix R1 t1)) (rigidMatrix R2 t2) =
      some (rigidMatrix (R1.transpose * R2).transpose
        (-((R1.transpose * R2).transpose.mulVec
          (R1.transpose.mulVec t2 + -(R1.transpose.mulVec t1))))) := by
    rw [hinv1]
    simp only [T_ev_rv]
    rw [hA, hinvA]
  have hcen : packetCenter (inverse (rigidMatrix R1 t1)) (rigidMatrix R2 t2) =
      some (R1.transpose.mulVec t2 + -(R1.transpose.mulVec t1)) := by
    simp only [packetCenter, hTev, Option.map_some', topLeftCorner_rigidMatrix,
      topRightCorner_rigidMatrix]
    rw [cameraCenter_of_inverse _ _ hRa]
  refine ⟨_, _, _, hinv1, Matrix.mul_eq_one_comm.mp (rigidMatrix_mul_inverse R1 t1 h1), hTev,
    ?_, hcen, ?_, ?_, ?_, ?_⟩
  · rw [hA]
    exact Matrix.mul_eq_one_comm.mp (rigidMatrix_mul_inverse _ _ hRa)
  · rw [topLeftCorner_rigidMatrix, topRightCorner_rigidMatrix,
      cameraCenter_of_inverse _ _ hRa]
  · rw [topLeftCorner_rigidMatrix, topRightCorner_rigidMatrix]
    simp
  · rw [hA, topRightCorner_rigidMatrix]
  · intro σ m events trajectory s hm hpose
    rw [packetStep_hit _ _ _ _ _ _ hpose, hm, hcen]

/-- Witness of C15: the identity reference pose and an event camera translated by
(1, 2, 3). -/
theorem updateDSI_camera_center_witness :
    ∃ (T_rv_w Tinv : Matrix4d) (c : Vector3f),
      inverse (rigidMatrix 1 0) = some T_rv_w ∧ T_rv_w * rigidMatrix 1 0 = 1 ∧
      T_ev_rv (inverse (rigidMatrix 1 0)) (rigidMatrix 1 ![1, 2, 3]) = some Tinv ∧
      Tinv * (T_rv_w * rigidMatrix 1 ![1, 2, 3]) = 1 ∧
      packetCenter (inverse (rigidMatrix 1 0)) (rigidMatrix 1 ![1, 2, 3]) = some c ∧
      c = cameraCenter (topLeftCorner Tinv) (topRightCorner Tinv) ∧
      (topLeftCorner Tinv).mulVec c + topRightCorner Tinv = 0 ∧
      c = topRightCorner (T_rv_w * rigidMatrix 1 ![1, 2, 3]) ∧
      ∀ (σ : Type) (m : MapperEMVS σ) (events : List Event) (trajectory : TrajectoryType)
        (s : LoopState), m.T_w_rv_ = rigidMatrix 1 0 →
        trajectory.getPoseAt
          (events.getD (s.current_event_ + m.packet_size_ / 2) default).ts =
            some (rigidMatrix 1 ![1, 2, 3]) →
        (packetStep m events trajectory (inverse m.T_w_rv_) s).camera_centers =
          s.camera_centers ++ [some c] :=
  updateDSI_camera_center (rigidMatrix 1 0) (rigidMatrix 1 ![1, 2, 3])
    (isRigid_rigidMatrix 1 0 (by simp)) (isRigid_rigidMatrix 1 ![1, 2, 3] (by simp))

end EMVS
